import Mathlib

/-!
# toxcore/group.c: the group-chat registry

A shallow embedding of `toxcore/group.c` and a verification of its slot and
peer-list contracts.

The registry `Group_Chats` owns two heap blocks, `chats` and `cons`, each with a
separate `uint32_t` element count, and every chat owns a third block, `group`,
with its count `numpeers`.  A block is embedded as a list (the empty list is the
NULL pointer), the count as a natural number next to it, exactly as in the C
struct; the *table* is the first `num` slots of the block.  C `int` values are
integers, the conversions between `int` and `uint32_t` are explicit, and a read
or write outside the block is the outcome `Run.fault`.

`group.h` and `util.c` are not part of the sources: the record types and their
sizes, the status constants, `id_equal`, `id_copy` and `unix_time` are modelled
from the spec.
-/

namespace Toxcore

/-! ## Machine integers and memory -/

/-- Outcome of running a C function: it returns `v`, or it reaches undefined
behaviour by touching memory outside an allocated block. -/
inductive Run (α : Type) where
  | done (v : α)
  | fault
deriving DecidableEq, Repr

/-- The conversion `(unsigned int)x` of an `int`, also the implicit conversion of
an `int` to `uint32_t`: reduction modulo `2^32`. -/
def to_unsigned (x : Int) : Nat := (x % 4294967296).toNat

/-- The implicit conversion of a `uint32_t` to `int` (`return i;`, `id = num`):
values from `2^31` on wrap to negative numbers. -/
def to_int (n : Nat) : Int :=
  if n % 4294967296 < 2147483648 then ((n % 4294967296 : Nat) : Int)
  else ((n % 4294967296 : Nat) : Int) - 4294967296

/-- Addition on `uint32_t`: `num + 1`, `++num`. -/
def u32_add (a b : Nat) : Nat := (a + b) % 4294967296

/-- Subtraction on `uint32_t`: `numpeers - 1`. -/
def u32_sub (a b : Nat) : Nat := (a + 4294967296 - b % 4294967296) % 4294967296

/-- The read `block[i]` with an `int` or `uint32_t` index: `none` outside the block. -/
def read {α : Type} (block : List α) (i : Int) : Option α :=
  if 0 ≤ i then block[i.toNat]? else none

/-- The write `block[i] = v` (also `memset(&block[i], 0, sizeof block[i])` with `v`
the zero record): `none` outside the block. -/
def write {α : Type} (block : List α) (i : Int) (v : α) : Option (List α) :=
  if 0 ≤ i ∧ i.toNat < block.length then some (block.set i.toNat v) else none

/-- The call `memset(&block[i], 0, n)` on a block whose slots take `size` bytes each:
the `n` bytes from the start of slot `i` on are cleared, so each of the
`(n + size - 1) / size` slots they reach holds `zero` afterwards (where `n` is a
multiple of `size`, as for the sizes used here, every such slot is cleared in
full); `none` when some of these bytes lie outside the block. -/
def memset_zero {α : Type} (zero : α) (size : Nat) (block : List α) (i : Int) (n : Nat) :
    Option (List α) :=
  if 0 ≤ i ∧ i.toNat * size + n ≤ block.length * size then
    some (block.take i.toNat ++ List.replicate ((n + size - 1) / size) zero ++
      block.drop (i.toNat + (n + size - 1) / size))
  else none

/-- The call `realloc(block, num * sizeof *block)` for `num > 0`.  `ok` says whether
the allocator succeeds; on failure the result is NULL (`none`) and the old block
stays.  On success the new block has `num` slots and keeps the first
`min num block.length` of them; further slots hold `junk`, whatever the allocator
hands out. -/
def realloc {α : Type} (ok : Bool) (junk : α) (block : List α) (num : Nat) :
    Option (List α) :=
  if ok then some (block.take num ++ List.replicate (num - block.length) junk)
  else none

/-! ## Data model -/

/-- Modelled from the spec: `GROUPCHAT_STATUS_NONE` of `group.h`, the status of a
free chat slot; it is the zero value, a zero-reset slot is free. -/
def GROUPCHAT_STATUS_NONE : Nat := 0

/-- Modelled from the spec: `GROUPCHAT_STATUS_VALID` of `group.h`, the only live
chat status. -/
def GROUPCHAT_STATUS_VALID : Nat := 1

/-- Modelled from the spec: `GROUPCON_STATUS_NONE` of `group.h`, the status of a
free connection slot; it is the zero value. -/
def GROUPCON_STATUS_NONE : Nat := 0

/-- Modelled from the spec: the identity of a peer, a fixed-length byte key
(`client_id` of `group.h`), given by its bytes. -/
abbrev Client_Id := List Nat

/-- Modelled from the spec: `CLIENT_ID_SIZE`, the length of an identity. -/
def CLIENT_ID_SIZE : Nat := 32

/-- Modelled from the spec: `Group_Peer` of `group.h` with the fields that `group.c`
touches. -/
structure Group_Peer where
  client_id : Client_Id
  last_recv : Nat
  last_recv_msgping : Nat
deriving DecidableEq, Repr

/-- Modelled from the spec: `Group_c` of `group.h`, a chat slot.  `group` is the
heap block of peers (`[]` is NULL), `numpeers` its element count. -/
structure Group_c where
  status : Nat
  group : List Group_Peer
  numpeers : Nat
deriving DecidableEq, Repr

/-- Modelled from the spec: `Group_Connection` of `group.h`, a connection slot. -/
structure Group_Connection where
  status : Nat
deriving DecidableEq, Repr

/-- Modelled from the spec: `Group_Chats` of `group.h`, the registry.  `m` is the
owner pointer (`0` is NULL); `chats` and `cons` are the heap blocks (`[]` is NULL),
`num_chats` and `num_cons` their `uint32_t` element counts. -/
structure Group_Chats where
  m : Nat
  chats : List Group_c
  num_chats : Nat
  cons : List Group_Connection
  num_cons : Nat
deriving DecidableEq, Repr

/-- The record `memset(p, 0, sizeof(Group_Peer))` leaves behind. -/
def Group_Peer.zero : Group_Peer :=
  { client_id := List.replicate CLIENT_ID_SIZE 0, last_recv := 0, last_recv_msgping := 0 }

/-- The record `memset(p, 0, sizeof(Group_c))` leaves behind: status NONE, the peer
block NULL, no peers. -/
def Group_c.zero : Group_c := { status := 0, group := [], numpeers := 0 }

/-- The record a zero-filling `memset` leaves in a connection slot. -/
def Group_Connection.zero : Group_Connection := { status := 0 }

/-- Modelled from the spec: `sizeof(Group_Connection)`, the bytes of a connection
slot of `group.h`: the record holds the `uint8_t` status alone, one byte. -/
def sizeof_Group_Connection : Nat := 1

/-- Modelled from the spec: `sizeof(Group_c)`, the bytes of a chat slot of `group.h`:
the `uint8_t` status, the pointer to the peer block and the `uint32_t` peer count,
laid out for a 64-bit target, 24 bytes. -/
def sizeof_Group_c : Nat := 24

/-- Modelled from the spec: `id_equal` of `util.c`, byte-wise equality of two
identities. -/
def id_equal (a b : Client_Id) : Bool := decide (a = b)

/-- Modelled from the spec: `id_copy` of `util.c`, the identity stored at the
destination after the copy. -/
def id_copy (src : Client_Id) : Client_Id := src

/-! ## Connection table -/

/-- The function `con_number_not_valid`: 1 if the con_number is not valid, 0 if it is. -/
def con_number_not_valid (g_c : Group_Chats) (con_number : Int) : Run Nat :=
  if to_unsigned con_number ≥ g_c.num_cons then .done 1
  else if g_c.cons.isEmpty then .done 1
  else
    match read g_c.cons con_number with
    | none => .fault
    | some c => if c.status = GROUPCON_STATUS_NONE then .done 1 else .done 0

/-- The function `realloc_groupcons`: set the size of the connection block to `num`;
returns -1 if `realloc` fails, 0 if it succeeds. -/
def realloc_groupcons (ok : Bool) (junk : Group_Connection) (g_c : Group_Chats)
    (num : Nat) : Group_Chats × Int :=
  if num = 0 then ({ g_c with cons := [] }, 0)
  else
    match realloc ok junk g_c.cons num with
    | none => (g_c, -1)
    | some newgroup_cons => ({ g_c with cons := newgroup_cons }, 0)

/-- The `for` loop of `create_group_con`, at index `i` with `n = num_cons - i` rounds
to go: `some i` when the loop returns `i`, `none` when it runs to its end. -/
def create_group_con_loop (g_c : Group_Chats) : Nat → Nat → Run (Option Nat)
  | 0, _ => .done none
  | n + 1, i =>
    match g_c.cons[i]? with
    | none => .fault
    | some c =>
      if c.status = GROUPCON_STATUS_NONE then .done (some i)
      else create_group_con_loop g_c n (i + 1)

/-- The function `create_group_con`: the registry afterwards and the returned
con_number, -1 on failure. -/
def create_group_con (ok : Bool) (junk : Group_Connection) (g_c : Group_Chats) :
    Run (Group_Chats × Int) :=
  match create_group_con_loop g_c g_c.num_cons 0 with
  | .fault => .fault
  | .done (some i) => .done (g_c, to_int i)
  | .done none =>
    let r := realloc_groupcons ok junk g_c (u32_add g_c.num_cons 1)
    if r.2 = 0 then
      let id := to_int r.1.num_cons
      let g1 := { r.1 with num_cons := u32_add r.1.num_cons 1 }
      match write g1.cons id Group_Connection.zero with
      | none => .fault
      | some cons1 => .done ({ g1 with cons := cons1 }, id)
    else .done (r.1, -1)

/-- The `for` loop of `wipe_group_con`, entered with `i`: the value of `i` after it. -/
def wipe_group_con_loop (g_c : Group_Chats) : Nat → Run Nat
  | 0 => .done 0
  | i + 1 =>
    match g_c.cons[i]? with
    | none => .fault
    | some c =>
      if c.status ≠ GROUPCON_STATUS_NONE then .done (i + 1)
      else wipe_group_con_loop g_c i

/-- The function `wipe_group_con`: the registry afterwards and the return value, -1
on failure, 0 on success.  The `memset` starts at the slot `con_number` of the
connection block and clears `sizeof(Group_c)` bytes, the size of a chat slot, as
in the source: it reaches the connection slots behind `con_number` too, and it is
a fault when it reaches beyond the block.  The result of the shrinking
`realloc_groupcons` is dropped, as in the source. -/
def wipe_group_con (ok : Bool) (junk : Group_Connection) (g_c : Group_Chats)
    (con_number : Int) : Run (Group_Chats × Int) :=
  match con_number_not_valid g_c con_number with
  | .fault => .fault
  | .done v =>
    if v ≠ 0 then .done (g_c, -1)
    else
      match memset_zero Group_Connection.zero sizeof_Group_Connection g_c.cons con_number
          sizeof_Group_c with
      | none => .fault
      | some cons1 =>
        let g1 := { g_c with cons := cons1 }
        match wipe_group_con_loop g1 g1.num_cons with
        | .fault => .fault
        | .done i =>
          if g1.num_cons ≠ i then
            let g2 := { g1 with num_cons := i }
            .done ((realloc_groupcons ok junk g2 g2.num_cons).1, 0)
          else .done (g1, 0)

/-- The function `get_con_group`: the pointer `&g_c->cons[con_number]`, given by its
index into the block, or NULL (`none`). -/
def get_con_group (g_c : Group_Chats) (con_number : Int) : Run (Option Int) :=
  match con_number_not_valid g_c con_number with
  | .fault => .fault
  | .done v => if v ≠ 0 then .done none else .done (some con_number)

/-! ## Chat table -/

/-- The function `groupnumber_not_valid`: 1 if the groupnumber is not valid, 0 if it is. -/
def groupnumber_not_valid (g_c : Group_Chats) (groupnumber : Int) : Run Nat :=
  if to_unsigned groupnumber ≥ g_c.num_chats then .done 1
  else if g_c.chats.isEmpty then .done 1
  else
    match read g_c.chats groupnumber with
    | none => .fault
    | some c => if c.status = GROUPCHAT_STATUS_NONE then .done 1 else .done 0

/-- The function `realloc_groupchats`: set the size of the chat block to `num`;
returns -1 if `realloc` fails, 0 if it succeeds. -/
def realloc_groupchats (ok : Bool) (junk : Group_c) (g_c : Group_Chats) (num : Nat) :
    Group_Chats × Int :=
  if num = 0 then ({ g_c with chats := [] }, 0)
  else
    match realloc ok junk g_c.chats num with
    | none => (g_c, -1)
    | some newgroup_chats => ({ g_c with chats := newgroup_chats }, 0)

/-- The `for` loop of `create_group_chat`, at index `i` with `n = num_chats - i`
rounds to go: `some i` when the loop returns `i`, `none` when it runs to its end. -/
def create_group_chat_loop (g_c : Group_Chats) : Nat → Nat → Run (Option Nat)
  | 0, _ => .done none
  | n + 1, i =>
    match g_c.chats[i]? with
    | none => .fault
    | some c =>
      if c.status = GROUPCHAT_STATUS_NONE then .done (some i)
      else create_group_chat_loop g_c n (i + 1)

/-- The function `create_group_chat`: the registry afterwards and the returned
groupnumber, -1 on failure. -/
def create_group_chat (ok : Bool) (junk : Group_c) (g_c : Group_Chats) :
    Run (Group_Chats × Int) :=
  match create_group_chat_loop g_c g_c.num_chats 0 with
  | .fault => .fault
  | .done (some i) => .done (g_c, to_int i)
  | .done none =>
    let r := realloc_groupchats ok junk g_c (u32_add g_c.num_chats 1)
    if r.2 = 0 then
      let id := to_int r.1.num_chats
      let g1 := { r.1 with num_chats := u32_add r.1.num_chats 1 }
      match write g1.chats id Group_c.zero with
      | none => .fault
      | some chats1 => .done ({ g1 with chats := chats1 }, id)
    else .done (r.1, -1)

/-- The `for` loop of `wipe_group_chat`, entered with `i`: the value of `i` after it. -/
def wipe_group_chat_loop (g_c : Group_Chats) : Nat → Run Nat
  | 0 => .done 0
  | i + 1 =>
    match g_c.chats[i]? with
    | none => .fault
    | some c =>
      if c.status ≠ GROUPCHAT_STATUS_NONE then .done (i + 1)
      else wipe_group_chat_loop g_c i

/-- The function `wipe_group_chat`: the registry afterwards and the return value, -1
on failure, 0 on success.  The result of the shrinking `realloc_groupchats` is
dropped, as in the source. -/
def wipe_group_chat (ok : Bool) (junk : Group_c) (g_c : Group_Chats)
    (groupnumber : Int) : Run (Group_Chats × Int) :=
  match groupnumber_not_valid g_c groupnumber with
  | .fault => .fault
  | .done v =>
    if v ≠ 0 then .done (g_c, -1)
    else
      match write g_c.chats groupnumber Group_c.zero with
      | none => .fault
      | some chats1 =>
        let g1 := { g_c with chats := chats1 }
        match wipe_group_chat_loop g1 g1.num_chats with
        | .fault => .fault
        | .done i =>
          if g1.num_chats ≠ i then
            let g2 := { g1 with num_chats := i }
            .done ((realloc_groupchats ok junk g2 g2.num_chats).1, 0)
          else .done (g1, 0)

/-- The function `get_group_c`: the pointer `&g_c->chats[groupnumber]`, given by its
index into the block, or NULL (`none`). -/
def get_group_c (g_c : Group_Chats) (groupnumber : Int) : Run (Option Int) :=
  match groupnumber_not_valid g_c groupnumber with
  | .fault => .fault
  | .done v => if v ≠ 0 then .done none else .done (some groupnumber)

/-! ## Peer list -/

/-- The `for` loop of `peer_in_chat`, at index `i` with `n = numpeers - i` rounds to
go: `some i` when the loop returns `i`, `none` when it runs to its end. -/
def peer_in_chat_loop (chat : Group_c) (client_id : Client_Id) :
    Nat → Nat → Run (Option Nat)
  | 0, _ => .done none
  | n + 1, i =>
    match chat.group[i]? with
    | none => .fault
    | some p =>
      if id_equal p.client_id client_id then .done (some i)
      else peer_in_chat_loop chat client_id n (i + 1)

/-- The function `peer_in_chat`: the peer number if the peer is in the chat, -1 if not. -/
def peer_in_chat (chat : Group_c) (client_id : Client_Id) : Run Int :=
  match peer_in_chat_loop chat client_id chat.numpeers 0 with
  | .fault => .fault
  | .done (some i) => .done (to_int i)
  | .done none => .done (-1)

/-- The function `addpeer`: the chat afterwards and the returned peer number, -1 on
error.  `unix_time` is the value both `unix_time()` calls return, the clock of
`util.c` as last updated. -/
def addpeer (ok : Bool) (junk : Group_Peer) (unix_time : Nat) (chat : Group_c)
    (client_id : Client_Id) : Run (Group_c × Int) :=
  match peer_in_chat chat client_id with
  | .fault => .fault
  | .done peernum =>
    if peernum ≠ -1 then .done (chat, peernum)
    else
      match realloc ok junk chat.group (u32_add chat.numpeers 1) with
      | none => .done (chat, -1)
      | some temp =>
        match write temp (chat.numpeers : Int) Group_Peer.zero with
        | none => .fault
        | some temp1 =>
          let chat1 := { chat with group := temp1 }
          match read chat1.group (chat1.numpeers : Int) with
          | none => .fault
          | some p =>
            let p1 := { p with client_id := id_copy client_id }
            let p2 := { p1 with last_recv := unix_time }
            let p3 := { p2 with last_recv_msgping := unix_time }
            match write chat1.group (chat1.numpeers : Int) p3 with
            | none => .fault
            | some group1 =>
              let chat2 := { chat1 with group := group1,
                                        numpeers := u32_add chat1.numpeers 1 }
              .done (chat2, to_int (u32_sub chat2.numpeers 1))

/-! ## Registry -/

/-- The function `temp_c_add_groupchat`: the registry afterwards and the returned
group number, -1 on failure. -/
def temp_c_add_groupchat (ok : Bool) (junk : Group_c) (g_c : Group_Chats) :
    Run (Group_Chats × Int) :=
  match create_group_chat ok junk g_c with
  | .fault => .fault
  | .done (g1, groupnumber) =>
    match get_group_c g1 groupnumber with
    | .fault => .fault
    | .done none => .done (g1, -1)
    | .done (some g) =>
      match read g1.chats g with
      | none => .fault
      | some c =>
        match write g1.chats g { c with status := GROUPCHAT_STATUS_VALID } with
        | none => .fault
        | some chats1 => .done ({ g1 with chats := chats1 }, groupnumber)

/-- The function `new_groupchats`: the new instance, or NULL (`none`).  `ok` says
whether `calloc` succeeds; the memory it returns is all zero. -/
def new_groupchats (ok : Bool) (m : Nat) : Option Group_Chats :=
  if m = 0 then none
  else if ok then
    let temp : Group_Chats := { m := 0, chats := [], num_chats := 0, cons := [], num_cons := 0 }
    some { temp with m := m }
  else none

/-- The function `do_groupchats`: the main loop, with an empty body. -/
def do_groupchats (g_c : Group_Chats) : Group_Chats := g_c

/-! ## Views used in the statements -/

/-- The connection table: the first `num_cons` slots of the connection block. -/
def con_table (g_c : Group_Chats) : List Group_Connection := g_c.cons.take g_c.num_cons

/-- The chat table: the first `num_chats` slots of the chat block. -/
def chat_table (g_c : Group_Chats) : List Group_c := g_c.chats.take g_c.num_chats

/-- The peer list of a chat: the first `numpeers` entries of its peer block. -/
def peer_list (chat : Group_c) : List Group_Peer := chat.group.take chat.numpeers

/-- Slot `k` lies inside the connection table and is free (status NONE). -/
def con_free (g_c : Group_Chats) (k : Nat) : Bool :=
  match (con_table g_c)[k]? with
  | some c => decide (c.status = GROUPCON_STATUS_NONE)
  | none => false

/-- Slot `k` lies inside the connection table and is live (status other than NONE). -/
def con_live (g_c : Group_Chats) (k : Nat) : Bool :=
  match (con_table g_c)[k]? with
  | some c => decide (c.status ≠ GROUPCON_STATUS_NONE)
  | none => false

/-- Slot `k` lies inside the chat table and is free (status NONE). -/
def chat_free (g_c : Group_Chats) (k : Nat) : Bool :=
  match (chat_table g_c)[k]? with
  | some c => decide (c.status = GROUPCHAT_STATUS_NONE)
  | none => false

/-- Slot `k` lies inside the chat table and is live (status other than NONE). -/
def chat_live (g_c : Group_Chats) (k : Nat) : Bool :=
  match (chat_table g_c)[k]? with
  | some c => decide (c.status ≠ GROUPCHAT_STATUS_NONE)
  | none => false

/-! ## The loops, over any block -/

/-- The first-fit scan shared by `create_group_con`, `create_group_chat` and
`peer_in_chat`, over any block and any test. -/
def scan_loop {α : Type} (hit : α → Bool) (block : List α) : Nat → Nat → Run (Option Nat)
  | 0, _ => .done none
  | n + 1, i =>
    match block[i]? with
    | none => .fault
    | some c => if hit c then .done (some i) else scan_loop hit block n (i + 1)

/-- The backward scan shared by `wipe_group_con` and `wipe_group_chat`, over any
block and any test. -/
def trim_loop {α : Type} (free : α → Bool) (block : List α) : Nat → Run Nat
  | 0 => .done 0
  | i + 1 =>
    match block[i]? with
    | none => .fault
    | some c => if free c then trim_loop free block i else .done (i + 1)

/-! ## Well-formed states and the driver of the creation sequence -/

/-- A value of the C type `int` (32 bits). -/
def is_int (x : Int) : Prop := -2147483648 ≤ x ∧ x ≤ 2147483647

instance (x : Int) : Decidable (is_int x) := by
  unfold is_int
  infer_instance

/-- The chat count does not exceed the allocated chat block and is a value of
`int`, the type of a chat handle. -/
def chats_wf (g_c : Group_Chats) : Prop :=
  g_c.num_chats ≤ g_c.chats.length ∧ g_c.num_chats < 2147483648

instance (g_c : Group_Chats) : Decidable (chats_wf g_c) := by
  unfold chats_wf
  infer_instance

/-- The connection count does not exceed the allocated connection block and is a
value of `int`, the type of a connection handle. -/
def cons_wf (g_c : Group_Chats) : Prop :=
  g_c.num_cons ≤ g_c.cons.length ∧ g_c.num_cons < 2147483648

instance (g_c : Group_Chats) : Decidable (cons_wf g_c) := by
  unfold cons_wf
  infer_instance

/-- The peer count does not exceed the allocated peer block and is a value of
`int`, the type of a peer number. -/
def peers_wf (chat : Group_c) : Prop :=
  chat.numpeers ≤ chat.group.length ∧ chat.numpeers < 2147483648

instance (chat : Group_c) : Decidable (peers_wf chat) := by
  unfold peers_wf
  infer_instance

/-- The handles returned by `n` successive calls of `temp_c_add_groupchat`, every
allocation succeeding, in the order of the calls. -/
def add_groupchats (junk : Group_c) : Nat → Group_Chats → Run (List Int)
  | 0, _ => .done []
  | n + 1, g_c =>
    match temp_c_add_groupchat true junk g_c with
    | .fault => .fault
    | .done (g1, groupnumber) =>
      match add_groupchats junk n g1 with
      | .fault => .fault
      | .done rest => .done (groupnumber :: rest)

/-! ## Callers of the registry: status writes, peers of a slot, call sequences -/

/-- The status write `g->status = GROUPCHAT_STATUS_VALID` of `temp_c_add_groupchat`,
on the slot `groupnumber` of the chat block. -/
def set_status_valid (g_c : Group_Chats) (groupnumber : Int) : Run Group_Chats :=
  match read g_c.chats groupnumber with
  | none => .fault
  | some c =>
    match write g_c.chats groupnumber { c with status := GROUPCHAT_STATUS_VALID } with
    | none => .fault
    | some chats1 => .done { g_c with chats := chats1 }

/-- The call `addpeer(&g_c->chats[groupnumber], client_id)`: `addpeer` working in
place on the slot `groupnumber` of the chat block. -/
def addpeer_at (ok : Bool) (junk : Group_Peer) (unix_time : Nat) (g_c : Group_Chats)
    (groupnumber : Int) (client_id : Client_Id) : Run (Group_Chats × Int) :=
  match read g_c.chats groupnumber with
  | none => .fault
  | some c =>
    match addpeer ok junk unix_time c client_id with
    | .fault => .fault
    | .done (c1, peernum) =>
      match write g_c.chats groupnumber c1 with
      | none => .fault
      | some chats1 => .done ({ g_c with chats := chats1 }, peernum)

/-- The calls `addpeer(&g_c->chats[groupnumber], id)` for the identities of a list,
one after the other, every allocation succeeding. -/
def addpeers_at (junk : Group_Peer) (unix_time : Nat) (groupnumber : Int) :
    List Client_Id → Group_Chats → Run Group_Chats
  | [], g_c => .done g_c
  | client_id :: rest, g_c =>
    match addpeer_at true junk unix_time g_c groupnumber client_id with
    | .fault => .fault
    | .done (g1, _) => addpeers_at junk unix_time groupnumber rest g1

/-- The free/live pattern of the connection table: `true` at the free slots. -/
def con_pattern (g_c : Group_Chats) : List Bool :=
  (con_table g_c).map (fun c => decide (c.status = GROUPCON_STATUS_NONE))

/-- The free/live pattern of the chat table: `true` at the free slots. -/
def chat_pattern (g_c : Group_Chats) : List Bool :=
  (chat_table g_c).map (fun c => decide (c.status = GROUPCHAT_STATUS_NONE))

/-- The number of trailing free slots of a table given by its free/live pattern. -/
def trailing_free (pattern : List Bool) : Nat :=
  (pattern.reverse.takeWhile (fun b => b)).length

theorem to_int_of_lt (n : Nat) (h : n < 2147483648) : to_int n = (n : Int) := by
  unfold to_int
  have h1 : n % 4294967296 = n := Nat.mod_eq_of_lt (by omega)
  rw [h1, if_pos h]

theorem u32_add_one (n : Nat) (h : n < 2147483648) : u32_add n 1 = n + 1 := by
  unfold u32_add
  exact Nat.mod_eq_of_lt (by omega)

theorem u32_sub_one (n : Nat) (h : n < 2147483648) : u32_sub (n + 1) 1 = n := by
  unfold u32_sub
  omega

theorem to_unsigned_nonneg (h : Int) (h0 : 0 ≤ h) (h1 : h ≤ 2147483647) :
    to_unsigned h = h.toNat := by
  unfold to_unsigned
  omega

theorem to_unsigned_neg (h : Int) (h0 : h < 0) (h1 : -2147483648 ≤ h) :
    2147483648 ≤ to_unsigned h := by
  unfold to_unsigned
  omega

theorem to_unsigned_natCast (k : Nat) (h : k < 2147483648) : to_unsigned (k : Int) = k := by
  unfold to_unsigned
  omega

/-! ## The loops: lemmas -/

theorem scan_loop_spec {α : Type} (hit : α → Bool) (block : List α) (n i : Nat)
    (hlen : i + n ≤ block.length) :
    (∃ k c, scan_loop hit block n i = .done (some k) ∧ i ≤ k ∧ k < i + n ∧
        block[k]? = some c ∧ hit c = true ∧
        ∀ j c1, i ≤ j → j < k → block[j]? = some c1 → hit c1 = false) ∨
    (scan_loop hit block n i = .done none ∧
        ∀ j c1, i ≤ j → j < i + n → block[j]? = some c1 → hit c1 = false) := by
  induction n generalizing i with
  | zero =>
    right
    refine ⟨rfl, ?_⟩
    intro j c1 h1 h2
    omega
  | succ n ih =>
    have hi : i < block.length := by omega
    unfold scan_loop
    rw [List.getElem?_eq_getElem hi]
    by_cases hh : hit block[i] = true
    · left
      refine ⟨i, block[i], ?_, le_refl _, by omega, List.getElem?_eq_getElem hi, hh, ?_⟩
      · simp [hh]
      · intro j c1 h1 h2
        omega
    · have hf : hit block[i] = false := by simpa using hh
      simp only [hf]
      rcases ih (i + 1) (by omega) with ⟨k, c, e, h1, h2, h3, h4, h5⟩ | ⟨e, h5⟩
      · left
        refine ⟨k, c, by simpa using e, by omega, by omega, h3, h4, ?_⟩
        intro j c1 hj1 hj2 hj3
        by_cases hji : j = i
        · subst hji
          rw [List.getElem?_eq_getElem hi] at hj3
          cases hj3
          exact hf
        · exact h5 j c1 (by omega) hj2 hj3
      · right
        refine ⟨by simpa using e, ?_⟩
        intro j c1 hj1 hj2 hj3
        by_cases hji : j = i
        · subst hji
          rw [List.getElem?_eq_getElem hi] at hj3
          cases hj3
          exact hf
        · exact h5 j c1 (by omega) (by omega) hj3

theorem trim_loop_spec {α : Type} (free : α → Bool) (block : List α) (n : Nat)
    (hlen : n ≤ block.length) :
    ∃ i, trim_loop free block n = .done i ∧ i ≤ n ∧
      (∀ j c, i ≤ j → j < n → block[j]? = some c → free c = true) ∧
      (i = 0 ∨ ∃ c, block[i - 1]? = some c ∧ free c = false) := by
  induction n with
  | zero =>
    exact ⟨0, rfl, le_refl _, by intro j c h1 h2; omega, Or.inl rfl⟩
  | succ n ih =>
    have hn : n < block.length := by omega
    unfold trim_loop
    rw [List.getElem?_eq_getElem hn]
    by_cases hh : free block[n] = true
    · simp only [hh, if_true]
      obtain ⟨i, e, h1, h2, h3⟩ := ih (by omega)
      refine ⟨i, e, by omega, ?_, h3⟩
      intro j c hj1 hj2 hj3
      by_cases hjn : j = n
      · subst hjn
        rw [List.getElem?_eq_getElem hn] at hj3
        cases hj3
        exact hh
      · exact h2 j c hj1 (by omega) hj3
    · have hf : free block[n] = false := by simpa using hh
      refine ⟨n + 1, by simp [hf], le_refl _, by intro j c h1 h2; omega, Or.inr ?_⟩
      exact ⟨block[n], by simp [List.getElem?_eq_getElem hn], hf⟩

theorem create_group_con_loop_eq (g_c : Group_Chats) (n i : Nat) :
    create_group_con_loop g_c n i =
      scan_loop (fun c => decide (c.status = GROUPCON_STATUS_NONE)) g_c.cons n i := by
  induction n generalizing i with
  | zero => rfl
  | succ n ih =>
    unfold create_group_con_loop scan_loop
    cases g_c.cons[i]? with
    | none => rfl
    | some c => simp [ih]

theorem create_group_chat_loop_eq (g_c : Group_Chats) (n i : Nat) :
    create_group_chat_loop g_c n i =
      scan_loop (fun c => decide (c.status = GROUPCHAT_STATUS_NONE)) g_c.chats n i := by
  induction n generalizing i with
  | zero => rfl
  | succ n ih =>
    unfold create_group_chat_loop scan_loop
    cases g_c.chats[i]? with
    | none => rfl
    | some c => simp [ih]

theorem wipe_group_con_loop_eq (g_c : Group_Chats) (n : Nat) :
    wipe_group_con_loop g_c n =
      trim_loop (fun c => decide (c.status = GROUPCON_STATUS_NONE)) g_c.cons n := by
  induction n with
  | zero => rfl
  | succ n ih =>
    unfold wipe_group_con_loop trim_loop
    cases g_c.cons[n]? with
    | none => rfl
    | some c =>
      by_cases hc : c.status = GROUPCON_STATUS_NONE <;> simp [ih, hc]

theorem wipe_group_chat_loop_eq (g_c : Group_Chats) (n : Nat) :
    wipe_group_chat_loop g_c n =
      trim_loop (fun c => decide (c.status = GROUPCHAT_STATUS_NONE)) g_c.chats n := by
  induction n with
  | zero => rfl
  | succ n ih =>
    unfold wipe_group_chat_loop trim_loop
    cases g_c.chats[n]? with
    | none => rfl
    | some c =>
      by_cases hc : c.status = GROUPCHAT_STATUS_NONE <;> simp [ih, hc]

theorem peer_in_chat_loop_eq (chat : Group_c) (client_id : Client_Id) (n i : Nat) :
    peer_in_chat_loop chat client_id n i =
      scan_loop (fun p => id_equal p.client_id client_id) chat.group n i := by
  induction n generalizing i with
  | zero => rfl
  | succ n ih =>
    unfold peer_in_chat_loop scan_loop
    cases chat.group[i]? with
    | none => rfl
    | some c => simp [ih]

/-! ## Chat table: lemmas -/

theorem chat_table_getElem? (g_c : Group_Chats) (k : Nat) :
    (chat_table g_c)[k]? = if k < g_c.num_chats then g_c.chats[k]? else none := by
  unfold chat_table
  exact List.getElem?_take

theorem chat_free_iff (g_c : Group_Chats) (k : Nat) :
    chat_free g_c k = true ↔
      k < g_c.num_chats ∧ ∃ c, g_c.chats[k]? = some c ∧ c.status = GROUPCHAT_STATUS_NONE := by
  unfold chat_free
  rw [chat_table_getElem?]
  by_cases hk : k < g_c.num_chats
  · simp only [hk, if_true, true_and]
    cases g_c.chats[k]? with
    | none => simp
    | some c => simp
  · simp [hk]

theorem chat_live_iff (g_c : Group_Chats) (k : Nat) :
    chat_live g_c k = true ↔
      k < g_c.num_chats ∧ ∃ c, g_c.chats[k]? = some c ∧ c.status ≠ GROUPCHAT_STATUS_NONE := by
  unfold chat_live
  rw [chat_table_getElem?]
  by_cases hk : k < g_c.num_chats
  · simp only [hk, if_true, true_and]
    cases g_c.chats[k]? with
    | none => simp
    | some c => simp
  · simp [hk]

theorem groupnumber_not_valid_eq (g_c : Group_Chats) (groupnumber : Int)
    (hblock : g_c.num_chats ≤ g_c.chats.length) (hint : g_c.num_chats ≤ 2147483648)
    (hlo : -2147483648 ≤ groupnumber) (hhi : groupnumber ≤ 2147483647) :
    groupnumber_not_valid g_c groupnumber =
      .done (if 0 ≤ groupnumber ∧ chat_live g_c groupnumber.toNat = true then 0 else 1) := by
  unfold groupnumber_not_valid
  by_cases h0 : 0 ≤ groupnumber
  · rw [to_unsigned_nonneg groupnumber h0 hhi]
    by_cases hk : groupnumber.toNat < g_c.num_chats
    · have hne : g_c.chats.isEmpty = false := by
        cases hc : g_c.chats with
        | nil => rw [hc] at hblock; simp at hblock; omega
        | cons a l => rfl
      have hlen : groupnumber.toNat < g_c.chats.length := by omega
      have hget : g_c.chats[groupnumber.toNat]? = some g_c.chats[groupnumber.toNat] :=
        List.getElem?_eq_getElem hlen
      have hlive : chat_live g_c groupnumber.toNat =
          decide (g_c.chats[groupnumber.toNat].status ≠ GROUPCHAT_STATUS_NONE) := by
        unfold chat_live
        rw [chat_table_getElem?, if_pos hk, hget]
      rw [if_neg (by omega), hne]
      simp only [read, h0, if_true, hget, hlive, Bool.false_eq_true, if_false, true_and]
      by_cases hs : g_c.chats[groupnumber.toNat].status = GROUPCHAT_STATUS_NONE
      · simp [hs]
      · simp [hs]
    · have hlive : chat_live g_c groupnumber.toNat = false := by
        unfold chat_live
        rw [chat_table_getElem?, if_neg hk]
      rw [if_pos (by omega), hlive]
      simp
  · have := to_unsigned_neg groupnumber (by omega) hlo
    rw [if_pos (by omega)]
    simp [h0]

/-- What `create_group_chat` does, case by case, on a registry whose chat count
fits the block and an `int`. -/
theorem create_group_chat_cases (ok : Bool) (junk : Group_c) (g_c : Group_Chats)
    (hblock : g_c.num_chats ≤ g_c.chats.length) (hint : g_c.num_chats < 2147483648) :
    (∃ k, chat_free g_c k = true ∧ (∀ j, j < k → chat_free g_c j = false) ∧
        create_group_chat ok junk g_c = .done (g_c, (k : Int))) ∨
    ((∀ j, chat_free g_c j = false) ∧ ok = true ∧
      ∃ g1, create_group_chat ok junk g_c = .done (g1, (g_c.num_chats : Int)) ∧
        g1.num_chats = g_c.num_chats + 1 ∧ g1.chats.length = g_c.num_chats + 1 ∧
        chat_table g1 = chat_table g_c ++ [Group_c.zero] ∧
        g1.m = g_c.m ∧ g1.cons = g_c.cons ∧ g1.num_cons = g_c.num_cons) ∨
    ((∀ j, chat_free g_c j = false) ∧ ok = false ∧
      create_group_chat ok junk g_c = .done (g_c, -1)) := by
  unfold create_group_chat
  rw [create_group_chat_loop_eq]
  rcases scan_loop_spec (fun c => decide (c.status = GROUPCHAT_STATUS_NONE)) g_c.chats
      g_c.num_chats 0 (by omega) with ⟨k, c, e, _, h2, h3, h4, h5⟩ | ⟨e, h5⟩
  · left
    refine ⟨k, ?_, ?_, ?_⟩
    · rw [chat_free_iff]
      exact ⟨by omega, c, h3, by simpa using h4⟩
    · intro j hj
      cases hf : chat_free g_c j with
      | false => rfl
      | true =>
        obtain ⟨_, c1, hc1, hs⟩ := (chat_free_iff g_c j).1 hf
        have := h5 j c1 (Nat.zero_le _) hj hc1
        simp [hs] at this
    · rw [e]
      simp only []
      rw [to_int_of_lt k (by omega)]
  · have hnone : ∀ j, chat_free g_c j = false := by
      intro j
      cases hf : chat_free g_c j with
      | false => rfl
      | true =>
        obtain ⟨hj, c1, hc1, hs⟩ := (chat_free_iff g_c j).1 hf
        have := h5 j c1 (Nat.zero_le _) (by omega) hc1
        simp [hs] at this
    rw [e]
    simp only []
    rw [u32_add_one _ hint]
    cases ok with
    | false =>
      right; right
      refine ⟨hnone, rfl, ?_⟩
      simp [realloc_groupchats, realloc]
    | true =>
      right; left
      refine ⟨hnone, rfl, ?_⟩
      have hlen : (List.take (g_c.num_chats + 1) g_c.chats ++
          List.replicate (g_c.num_chats + 1 - g_c.chats.length) junk).length
            = g_c.num_chats + 1 := by
        simp only [List.length_append, List.length_take, List.length_replicate]
        omega
      simp only [realloc_groupchats, realloc, if_true, Nat.succ_ne_zero, if_false,
        to_int_of_lt _ hint, u32_add_one _ hint, write, Int.toNat_ofNat, hlen,
        Nat.cast_nonneg, true_and, Nat.lt_succ_self]
      refine ⟨_, rfl, rfl, ?_, ?_, rfl, rfl, rfl⟩
      · simp only [List.length_set, hlen]
      · unfold chat_table
        simp only []
        apply List.ext_getElem?
        intro j
        simp only [List.getElem?_take, List.getElem?_set, List.getElem?_append,
          List.length_take, hlen]
        by_cases hj : j < g_c.num_chats
        · have h1 : j < g_c.num_chats + 1 := by omega
          have h2 : ¬ g_c.num_chats = j := by omega
          have h3 : j < min g_c.num_chats g_c.chats.length := by omega
          have h4 : j < min (g_c.num_chats + 1) g_c.chats.length := by omega
          simp [hj, h1, h2, h3, h4]
        · by_cases hj2 : j = g_c.num_chats
          · subst hj2
            have h3 : min g_c.num_chats g_c.chats.length = g_c.num_chats := by omega
            simp [h3]
          · have h1 : ¬ j < g_c.num_chats + 1 := by omega
            have h3 : min g_c.num_chats g_c.chats.length = g_c.num_chats := by omega
            have h4 : (j - g_c.num_chats) ≠ 0 := by omega
            simp [hj, h1, h3, h4]
            omega

theorem wipe_group_chat_invalid (ok : Bool) (junk : Group_c) (g_c : Group_Chats)
    (groupnumber : Int)
    (hblock : g_c.num_chats ≤ g_c.chats.length) (hint : g_c.num_chats ≤ 2147483648)
    (hlo : -2147483648 ≤ groupnumber) (hhi : groupnumber ≤ 2147483647)
    (hdead : ¬ (0 ≤ groupnumber ∧ chat_live g_c groupnumber.toNat = true)) :
    wipe_group_chat ok junk g_c groupnumber = .done (g_c, -1) := by
  unfold wipe_group_chat
  rw [groupnumber_not_valid_eq g_c groupnumber hblock hint hlo hhi, if_neg hdead]
  simp

/-- What a successful `wipe_group_chat` does on a registry whose chat count fits the
block and an `int`. -/
theorem wipe_group_chat_live (ok : Bool) (junk : Group_c) (g_c : Group_Chats)
    (groupnumber : Int)
    (hblock : g_c.num_chats ≤ g_c.chats.length) (hint : g_c.num_chats ≤ 2147483648)
    (hhi : groupnumber ≤ 2147483647)
    (h0 : 0 ≤ groupnumber) (hlive : chat_live g_c groupnumber.toNat = true) :
    ∃ g1, wipe_group_chat ok junk g_c groupnumber = .done (g1, 0) ∧
      g1.num_chats ≤ g_c.num_chats ∧ g1.num_chats ≤ g1.chats.length ∧
      chat_table g1 =
        ((chat_table g_c).set groupnumber.toNat Group_c.zero).take g1.num_chats ∧
      (∀ j, g1.num_chats ≤ j → j < g_c.num_chats →
        j = groupnumber.toNat ∨ chat_free g_c j = true) ∧
      (g1.num_chats = 0 ∨ chat_live g1 (g1.num_chats - 1) = true) ∧
      g1.m = g_c.m ∧ g1.cons = g_c.cons ∧ g1.num_cons = g_c.num_cons := by
  obtain ⟨hk, c0, hc0, hs0⟩ := (chat_live_iff g_c _).1 hlive
  have hklen : groupnumber.toNat < g_c.chats.length := by omega
  unfold wipe_group_chat
  rw [groupnumber_not_valid_eq g_c groupnumber hblock hint (by omega) hhi,
    if_pos ⟨h0, hlive⟩]
  simp only [ne_eq, not_true_eq_false, if_false, write, h0, hklen, and_self, if_true,
    wipe_group_chat_loop_eq]
  obtain ⟨i, e, hi1, hi2, hi3⟩ :=
    trim_loop_spec (fun c => decide (c.status = GROUPCHAT_STATUS_NONE))
      (g_c.chats.set groupnumber.toNat Group_c.zero) g_c.num_chats
      (by rw [List.length_set]; exact hblock)
  rw [e]
  simp only []
  -- facts shared by all branches
  have hfree : ∀ j, i ≤ j → j < g_c.num_chats →
      j = groupnumber.toNat ∨ chat_free g_c j = true := by
    intro j hj1 hj2
    by_cases hjk : j = groupnumber.toNat
    · exact Or.inl hjk
    · right
      have hjlen : j < g_c.chats.length := by omega
      have hget : (g_c.chats.set groupnumber.toNat Group_c.zero)[j]? = some g_c.chats[j] := by
        rw [List.getElem?_set, if_neg (Ne.symm hjk)]
        exact List.getElem?_eq_getElem hjlen
      have := hi2 j _ hj1 hj2 hget
      rw [chat_free_iff]
      exact ⟨hj2, g_c.chats[j], List.getElem?_eq_getElem hjlen, by simpa using this⟩
  have htab : ∀ (blk : List Group_c), (∀ j, j < i → blk[j]? =
      (g_c.chats.set groupnumber.toNat Group_c.zero)[j]?) →
      List.take i blk =
        List.take i ((List.take g_c.num_chats g_c.chats).set groupnumber.toNat Group_c.zero) := by
    intro blk hblk
    apply List.ext_getElem?
    intro j
    simp only [List.getElem?_take]
    by_cases hj : j < i
    · have hj2 : j < g_c.num_chats := by omega
      simp only [hj, if_true, hblk j hj, List.getElem?_set, List.getElem?_take, hj2,
        List.length_take]
      by_cases hjk : groupnumber.toNat = j
      · subst hjk
        have : groupnumber.toNat < min g_c.num_chats g_c.chats.length := by omega
        simp [hklen, this]
      · simp [hjk]
    · simp [hj]
  have hlast : ∀ (blk : List Group_c), (∀ j, j < i → blk[j]? =
      (g_c.chats.set groupnumber.toNat Group_c.zero)[j]?) →
      (i = 0 ∨ ∃ c, blk[i - 1]? = some c ∧ c.status ≠ GROUPCHAT_STATUS_NONE) := by
    intro blk hblk
    rcases hi3 with h | ⟨c, hc, hcs⟩
    · exact Or.inl h
    · by_cases hz : i = 0
      · exact Or.inl hz
      · right
        refine ⟨c, ?_, by simpa using hcs⟩
        rw [hblk (i - 1) (by omega)]
        exact hc
  by_cases hne : g_c.num_chats = i
  · -- nothing to trim
    subst hne
    simp only [ne_eq, not_true_eq_false, if_false]
    refine ⟨_, rfl, le_refl _, ?_, ?_, ?_, ?_, rfl, rfl, rfl⟩
    · simp only [List.length_set]; omega
    · exact htab _ (fun j _ => rfl)
    · intro j hj1 hj2
      exact hfree j hj1 hj2
    · rcases hlast (g_c.chats.set groupnumber.toNat Group_c.zero) (fun j _ => rfl) with
        h | ⟨c, hc, hcs⟩
      · exact Or.inl h
      · right
        rw [chat_live_iff]
        exact ⟨by simp only []; omega, c, hc, hcs⟩
  · simp only [ne_eq, hne, not_false_eq_true, if_true]
    by_cases hz : i = 0
    · subst hz
      refine ⟨_, rfl, ?_⟩
      simp [realloc_groupchats, chat_table]
      intro j hj
      exact hfree j (Nat.zero_le _) hj
    · cases ok with
      | false =>
        simp only [realloc_groupchats, hz, if_false, realloc, Bool.false_eq_true]
        refine ⟨_, rfl, hi1, ?_, ?_, hfree, ?_, rfl, rfl, rfl⟩
        · simp only [List.length_set]; omega
        · exact htab _ (fun j _ => rfl)
        · rcases hlast (g_c.chats.set groupnumber.toNat Group_c.zero) (fun j _ => rfl) with
            h | ⟨c, hc, hcs⟩
          · exact Or.inl h
          · right
            rw [chat_live_iff]
            exact ⟨by simp only []; omega, c, hc, hcs⟩
      | true =>
        have hsub : i - (g_c.chats.set groupnumber.toNat Group_c.zero).length = 0 := by
          rw [List.length_set]; omega
        simp only [realloc_groupchats, hz, if_false, realloc, if_true, hsub,
          List.replicate_zero, List.append_nil]
        have hblk : ∀ j, j < i →
            (List.take i (g_c.chats.set groupnumber.toNat Group_c.zero))[j]? =
              (g_c.chats.set groupnumber.toNat Group_c.zero)[j]? := by
          intro j hj
          rw [List.getElem?_take, if_pos hj]
        refine ⟨_, rfl, hi1, ?_, ?_, hfree, ?_, rfl, rfl, rfl⟩
        · simp only [List.length_take, List.length_set]; omega
        · exact htab _ hblk
        · rcases hlast _ hblk with h | ⟨c, hc, hcs⟩
          · exact Or.inl h
          · right
            rw [chat_live_iff]
            exact ⟨by simp only []; omega, c, hc, hcs⟩

/-! ## Connection table: lemmas -/

theorem con_table_getElem? (g_c : Group_Chats) (k : Nat) :
    (con_table g_c)[k]? = if k < g_c.num_cons then g_c.cons[k]? else none := by
  unfold con_table
  exact List.getElem?_take

theorem con_free_iff (g_c : Group_Chats) (k : Nat) :
    con_free g_c k = true ↔
      k < g_c.num_cons ∧ ∃ c, g_c.cons[k]? = some c ∧ c.status = GROUPCON_STATUS_NONE := by
  unfold con_free
  rw [con_table_getElem?]
  by_cases hk : k < g_c.num_cons
  · simp only [hk, if_true, true_and]
    cases g_c.cons[k]? with
    | none => simp
    | some c => simp
  · simp [hk]

theorem con_live_iff (g_c : Group_Chats) (k : Nat) :
    con_live g_c k = true ↔
      k < g_c.num_cons ∧ ∃ c, g_c.cons[k]? = some c ∧ c.status ≠ GROUPCON_STATUS_NONE := by
  unfold con_live
  rw [con_table_getElem?]
  by_cases hk : k < g_c.num_cons
  · simp only [hk, if_true, true_and]
    cases g_c.cons[k]? with
    | none => simp
    | some c => simp
  · simp [hk]

theorem con_number_not_valid_eq (g_c : Group_Chats) (con_number : Int)
    (hblock : g_c.num_cons ≤ g_c.cons.length) (hint : g_c.num_cons ≤ 2147483648)
    (hlo : -2147483648 ≤ con_number) (hhi : con_number ≤ 2147483647) :
    con_number_not_valid g_c con_number =
      .done (if 0 ≤ con_number ∧ con_live g_c con_number.toNat = true then 0 else 1) := by
  unfold con_number_not_valid
  by_cases h0 : 0 ≤ con_number
  · rw [to_unsigned_nonneg con_number h0 hhi]
    by_cases hk : con_number.toNat < g_c.num_cons
    · have hne : g_c.cons.isEmpty = false := by
        cases hc : g_c.cons with
        | nil => rw [hc] at hblock; simp at hblock; omega
        | cons a l => rfl
      have hlen : con_number.toNat < g_c.cons.length := by omega
      have hget : g_c.cons[con_number.toNat]? = some g_c.cons[con_number.toNat] :=
        List.getElem?_eq_getElem hlen
      have hlive : con_live g_c con_number.toNat =
          decide (g_c.cons[con_number.toNat].status ≠ GROUPCON_STATUS_NONE) := by
        unfold con_live
        rw [con_table_getElem?, if_pos hk, hget]
      rw [if_neg (by omega), hne]
      simp only [read, h0, if_true, hget, hlive, Bool.false_eq_true, if_false, true_and]
      by_cases hs : g_c.cons[con_number.toNat].status = GROUPCON_STATUS_NONE
      · simp [hs]
      · simp [hs]
    · have hlive : con_live g_c con_number.toNat = false := by
        unfold con_live
        rw [con_table_getElem?, if_neg hk]
      rw [if_pos (by omega), hlive]
      simp
  · have := to_unsigned_neg con_number (by omega) hlo
    rw [if_pos (by omega)]
    simp [h0]

/-- What `create_group_con` does, case by case, on a registry whose connection count
fits the block and an `int`. -/
theorem create_group_con_cases (ok : Bool) (junk : Group_Connection) (g_c : Group_Chats)
    (hblock : g_c.num_cons ≤ g_c.cons.length) (hint : g_c.num_cons < 2147483648) :
    (∃ k, con_free g_c k = true ∧ (∀ j, j < k → con_free g_c j = false) ∧
        create_group_con ok junk g_c = .done (g_c, (k : Int))) ∨
    ((∀ j, con_free g_c j = false) ∧ ok = true ∧
      ∃ g1, create_group_con ok junk g_c = .done (g1, (g_c.num_cons : Int)) ∧
        g1.num_cons = g_c.num_cons + 1 ∧ g1.cons.length = g_c.num_cons + 1 ∧
        con_table g1 = con_table g_c ++ [Group_Connection.zero] ∧
        g1.m = g_c.m ∧ g1.chats = g_c.chats ∧ g1.num_chats = g_c.num_chats) ∨
    ((∀ j, con_free g_c j = false) ∧ ok = false ∧
      create_group_con ok junk g_c = .done (g_c, -1)) := by
  unfold create_group_con
  rw [create_group_con_loop_eq]
  rcases scan_loop_spec (fun c => decide (c.status = GROUPCON_STATUS_NONE)) g_c.cons
      g_c.num_cons 0 (by omega) with ⟨k, c, e, _, h2, h3, h4, h5⟩ | ⟨e, h5⟩
  · left
    refine ⟨k, ?_, ?_, ?_⟩
    · rw [con_free_iff]
      exact ⟨by omega, c, h3, by simpa using h4⟩
    · intro j hj
      cases hf : con_free g_c j with
      | false => rfl
      | true =>
        obtain ⟨_, c1, hc1, hs⟩ := (con_free_iff g_c j).1 hf
        have := h5 j c1 (Nat.zero_le _) hj hc1
        simp [hs] at this
    · rw [e]
      simp only []
      rw [to_int_of_lt k (by omega)]
  · have hnone : ∀ j, con_free g_c j = false := by
      intro j
      cases hf : con_free g_c j with
      | false => rfl
      | true =>
        obtain ⟨hj, c1, hc1, hs⟩ := (con_free_iff g_c j).1 hf
        have := h5 j c1 (Nat.zero_le _) (by omega) hc1
        simp [hs] at this
    rw [e]
    simp only []
    rw [u32_add_one _ hint]
    cases ok with
    | false =>
      right; right
      refine ⟨hnone, rfl, ?_⟩
      simp [realloc_groupcons, realloc]
    | true =>
      right; left
      refine ⟨hnone, rfl, ?_⟩
      have hlen : (List.take (g_c.num_cons + 1) g_c.cons ++
          List.replicate (g_c.num_cons + 1 - g_c.cons.length) junk).length
            = g_c.num_cons + 1 := by
        simp only [List.length_append, List.length_take, List.length_replicate]
        omega
      simp only [realloc_groupcons, realloc, if_true, Nat.succ_ne_zero, if_false,
        to_int_of_lt _ hint, u32_add_one _ hint, write, Int.toNat_ofNat, hlen,
        Nat.cast_nonneg, true_and, Nat.lt_succ_self]
      refine ⟨_, rfl, rfl, ?_, ?_, rfl, rfl, rfl⟩
      · simp only [List.length_set, hlen]
      · unfold con_table
        simp only []
        apply List.ext_getElem?
        intro j
        simp only [List.getElem?_take, List.getElem?_set, List.getElem?_append,
          List.length_take, hlen]
        by_cases hj : j < g_c.num_cons
        · have h1 : j < g_c.num_cons + 1 := by omega
          have h2 : ¬ g_c.num_cons = j := by omega
          have h3 : j < min g_c.num_cons g_c.cons.length := by omega
          have h4 : j < min (g_c.num_cons + 1) g_c.cons.length := by omega
          simp [hj, h1, h2, h3, h4]
        · by_cases hj2 : j = g_c.num_cons
          · subst hj2
            have h3 : min g_c.num_cons g_c.cons.length = g_c.num_cons := by omega
            simp [h3]
          · have h1 : ¬ j < g_c.num_cons + 1 := by omega
            have h3 : min g_c.num_cons g_c.cons.length = g_c.num_cons := by omega
            have h4 : (j - g_c.num_cons) ≠ 0 := by omega
            simp [hj, h1, h3, h4]
            omega

theorem memset_zero_length {α : Type} (zero : α) (size : Nat) (block cleared : List α)
    (i : Int) (n : Nat) (hsize : 0 < size)
    (h : memset_zero zero size block i n = some cleared) :
    cleared.length = block.length := by
  unfold memset_zero at h
  split at h
  · rename_i hin
    injection h with h
    subst h
    have h1 : (n + size - 1) / size * size ≤ n + size - 1 := Nat.div_mul_le_self _ _
    generalize (n + size - 1) / size = cnt at h1 ⊢
    have hcnt : i.toNat + cnt ≤ block.length := by
      have h2 : (i.toNat + cnt) * size < (block.length + 1) * size := by
        rw [Nat.add_mul, Nat.add_mul]
        omega
      have := Nat.lt_of_mul_lt_mul_right h2
      omega
    simp only [List.length_append, List.length_take, List.length_replicate,
      List.length_drop]
    omega
  · cases h

/-- What `wipe_group_con` does on a valid handle: it returns 0 when the
`sizeof(Group_c)` bytes cleared from the slot on lie inside the connection block,
and it is a fault when they reach beyond the block. -/
theorem wipe_group_con_valid (ok : Bool) (junk : Group_Connection) (g_c : Group_Chats)
    (con_number : Int)
    (hblock : g_c.num_cons ≤ g_c.cons.length) (hint : g_c.num_cons ≤ 2147483648)
    (hhi : con_number ≤ 2147483647)
    (h0 : 0 ≤ con_number) (hlive : con_live g_c con_number.toNat = true) :
    (con_number.toNat * sizeof_Group_Connection + sizeof_Group_c ≤
        g_c.cons.length * sizeof_Group_Connection →
      ∃ g1, wipe_group_con ok junk g_c con_number = .done (g1, 0)) ∧
    (¬ con_number.toNat * sizeof_Group_Connection + sizeof_Group_c ≤
        g_c.cons.length * sizeof_Group_Connection →
      wipe_group_con ok junk g_c con_number = .fault) := by
  unfold wipe_group_con
  rw [con_number_not_valid_eq g_c con_number hblock hint (by omega) hhi,
    if_pos ⟨h0, hlive⟩]
  simp only [ne_eq, not_true_eq_false, if_false]
  constructor
  · intro hin
    cases hm : memset_zero Group_Connection.zero sizeof_Group_Connection g_c.cons con_number
        sizeof_Group_c with
    | none =>
      unfold memset_zero at hm
      rw [if_pos ⟨h0, hin⟩] at hm
      cases hm
    | some cons1 =>
      have hlen := memset_zero_length _ _ _ _ _ _ (by decide) hm
      simp only [wipe_group_con_loop_eq]
      obtain ⟨i, e, _⟩ :=
        trim_loop_spec (fun c => decide (c.status = GROUPCON_STATUS_NONE)) cons1
          g_c.num_cons (by omega)
      rw [e]
      simp only []
      by_cases hne : g_c.num_cons = i
      · simp only [hne, ne_eq, not_true_eq_false, if_false]
        exact ⟨_, rfl⟩
      · simp only [ne_eq, hne, not_false_eq_true, if_true]
        exact ⟨_, rfl⟩
  · intro hout
    have hm : memset_zero Group_Connection.zero sizeof_Group_Connection g_c.cons con_number
        sizeof_Group_c = none := by
      unfold memset_zero
      rw [if_neg (fun h => hout h.2)]
    rw [hm]

/-! ## Peer list: lemmas -/

theorem peer_list_getElem? (chat : Group_c) (k : Nat) :
    (peer_list chat)[k]? = if k < chat.numpeers then chat.group[k]? else none := by
  unfold peer_list
  exact List.getElem?_take

/-- What `peer_in_chat` returns on a chat whose peer count fits the block and an
`int`. -/
theorem peer_in_chat_cases (chat : Group_c) (client_id : Client_Id)
    (hblock : chat.numpeers ≤ chat.group.length) (hint : chat.numpeers ≤ 2147483648) :
    (∃ (k : Nat) (p : Group_Peer), (peer_list chat)[k]? = some p ∧ p.client_id = client_id ∧
        (∀ (j : Nat) (q : Group_Peer), j < k → (peer_list chat)[j]? = some q → q.client_id ≠ client_id) ∧
        peer_in_chat chat client_id = .done (k : Int)) ∨
    ((∀ q ∈ peer_list chat, q.client_id ≠ client_id) ∧
        peer_in_chat chat client_id = .done (-1)) := by
  unfold peer_in_chat
  rw [peer_in_chat_loop_eq]
  rcases scan_loop_spec (fun p => id_equal p.client_id client_id) chat.group
      chat.numpeers 0 (by omega) with ⟨k, c, e, _, h2, h3, h4, h5⟩ | ⟨e, h5⟩
  · left
    refine ⟨k, c, ?_, by simpa [id_equal] using h4, ?_, ?_⟩
    · rw [peer_list_getElem?, if_pos (by omega)]
      exact h3
    · intro j q hj hq
      rw [peer_list_getElem?, if_pos (by omega)] at hq
      have := h5 j q (Nat.zero_le _) hj hq
      simpa [id_equal] using this
    · rw [e]
      simp only []
      rw [to_int_of_lt k (by omega)]
  · right
    refine ⟨?_, by rw [e]⟩
    intro q hq
    obtain ⟨j, hj⟩ := List.getElem?_of_mem hq
    have hjn : j < chat.numpeers := by
      by_contra hcon
      rw [peer_list_getElem?, if_neg hcon] at hj
      cases hj
    rw [peer_list_getElem?, if_pos hjn] at hj
    have := h5 j q (Nat.zero_le _) (by omega) hj
    simpa [id_equal] using this

/-- What `addpeer` does, case by case, on a chat whose peer count fits the block
and an `int`. -/
theorem addpeer_cases (ok : Bool) (junk : Group_Peer) (unix_time : Nat) (chat : Group_c)
    (client_id : Client_Id)
    (hblock : chat.numpeers ≤ chat.group.length) (hint : chat.numpeers < 2147483648) :
    (∃ (k : Nat) (p : Group_Peer), (peer_list chat)[k]? = some p ∧ p.client_id = client_id ∧
        (∀ (j : Nat) (q : Group_Peer), j < k → (peer_list chat)[j]? = some q → q.client_id ≠ client_id) ∧
        addpeer ok junk unix_time chat client_id = .done (chat, (k : Int))) ∨
    ((∀ q ∈ peer_list chat, q.client_id ≠ client_id) ∧ ok = true ∧
      ∃ chat1, addpeer ok junk unix_time chat client_id =
          .done (chat1, (chat.numpeers : Int)) ∧
        chat1.numpeers = chat.numpeers + 1 ∧ chat1.group.length = chat.numpeers + 1 ∧
        peer_list chat1 = peer_list chat ++
          [{ client_id := client_id, last_recv := unix_time,
             last_recv_msgping := unix_time }] ∧
        chat1.status = chat.status) ∨
    ((∀ q ∈ peer_list chat, q.client_id ≠ client_id) ∧ ok = false ∧
      addpeer ok junk unix_time chat client_id = .done (chat, -1)) := by
  unfold addpeer
  rcases peer_in_chat_cases chat client_id hblock (by omega) with
    ⟨k, p, h1, h2, h3, e⟩ | ⟨h1, e⟩
  · left
    refine ⟨k, p, h1, h2, h3, ?_⟩
    rw [e]
    have : ((k : Int) ≠ -1) := by omega
    simp only [this, ne_eq, not_false_eq_true, if_true]
  · rw [e]
    simp only [ne_eq, not_true_eq_false, if_false, u32_add_one _ hint]
    cases ok with
    | false =>
      right; right
      exact ⟨h1, rfl, by simp [realloc]⟩
    | true =>
      right; left
      refine ⟨h1, rfl, ?_⟩
      have hlen : (List.take (chat.numpeers + 1) chat.group ++
          List.replicate (chat.numpeers + 1 - chat.group.length) junk).length
            = chat.numpeers + 1 := by
        simp only [List.length_append, List.length_take, List.length_replicate]
        omega
      simp only [realloc, if_true, write, read, Int.toNat_ofNat, hlen, List.length_set,
        Nat.cast_nonneg, true_and, Nat.lt_succ_self, List.getElem?_set, id_copy,
        u32_add_one _ hint, u32_sub_one _ hint, to_int_of_lt _ hint]
      refine ⟨_, rfl, rfl, ?_, ?_, rfl⟩
      · simp only [List.length_set, hlen]
      · unfold peer_list
        simp only []
        apply List.ext_getElem?
        intro j
        simp only [List.getElem?_take, List.getElem?_set, List.getElem?_append,
          List.length_take, List.length_set, hlen]
        by_cases hj : j < chat.numpeers
        · have h1 : j < chat.numpeers + 1 := by omega
          have h2 : ¬ chat.numpeers = j := by omega
          have h3 : j < min chat.numpeers chat.group.length := by omega
          have h4 : j < min (chat.numpeers + 1) chat.group.length := by omega
          simp [hj, h1, h2, h3, h4]
        · by_cases hj2 : j = chat.numpeers
          · subst hj2
            have h3 : min chat.numpeers chat.group.length = chat.numpeers := by omega
            simp [h3]
          · have h1 : ¬ j < chat.numpeers + 1 := by omega
            have h3 : min chat.numpeers chat.group.length = chat.numpeers := by omega
            have h4 : (j - chat.numpeers) ≠ 0 := by omega
            simp [hj, h1, h3, h4]
            omega

/-! ## Handles: lemmas -/

theorem take_set_getElem? {α : Type} (l : List α) (k n j : Nat) (z : α)
    (hk : k < l.length) :
    ((l.set k z).take n)[j]? =
      if j < n then (if j = k then some z else l[j]?) else none := by
  rw [List.getElem?_take, List.getElem?_set]
  by_cases hj : j < n
  · by_cases hjk : j = k
    · subst hjk
      simp [hj, hk]
    · have : ¬ k = j := fun h => hjk h.symm
      simp [hj, hjk, this]
  · simp [hj]

/-- A handle is live exactly when the validity check of the source accepts it. -/
theorem groupnumber_live_iff (g_c : Group_Chats) (groupnumber : Int)
    (hwf : chats_wf g_c) (hint : is_int groupnumber) :
    groupnumber_not_valid g_c groupnumber = .done 0 ↔
      (0 ≤ groupnumber ∧ chat_live g_c groupnumber.toNat = true) := by
  rw [groupnumber_not_valid_eq g_c groupnumber hwf.1 (le_of_lt hwf.2) hint.1 hint.2]
  by_cases h : 0 ≤ groupnumber ∧ chat_live g_c groupnumber.toNat = true
  · simp [h]
  · simp only [h, if_false, iff_false]
    intro hcon
    cases hcon

theorem chat_free_of_getElem? (g_c : Group_Chats) (k : Nat) (c : Group_c)
    (h : (chat_table g_c)[k]? = some c) :
    chat_free g_c k = decide (c.status = GROUPCHAT_STATUS_NONE) := by
  unfold chat_free
  rw [h]

theorem chat_live_of_getElem? (g_c : Group_Chats) (k : Nat) (c : Group_c)
    (h : (chat_table g_c)[k]? = some c) :
    chat_live g_c k = decide (c.status ≠ GROUPCHAT_STATUS_NONE) := by
  unfold chat_live
  rw [h]

theorem chat_live_lt (g_c : Group_Chats) (k : Nat) (h : chat_live g_c k = true) :
    k < g_c.num_chats := ((chat_live_iff g_c k).1 h).1

theorem chat_free_lt (g_c : Group_Chats) (k : Nat) (h : chat_free g_c k = true) :
    k < g_c.num_chats := ((chat_free_iff g_c k).1 h).1

theorem chat_free_not_live (g_c : Group_Chats) (k : Nat) (h : chat_free g_c k = true) :
    chat_live g_c k = false := by
  unfold chat_free at h
  unfold chat_live
  cases hc : (chat_table g_c)[k]? with
  | none => rfl
  | some c =>
    rw [hc] at h
    simp only [] at h ⊢
    simpa using h

theorem chat_table_length (g_c : Group_Chats) (h : g_c.num_chats ≤ g_c.chats.length) :
    (chat_table g_c).length = g_c.num_chats := by
  unfold chat_table
  rw [List.length_take]
  omega

/-- After a successful `wipe_group_chat` the slots of the table, one by one. -/
theorem wipe_group_chat_slots (g_c g1 : Group_Chats) (k : Nat)
    (hblock : g_c.num_chats ≤ g_c.chats.length) (hk : k < g_c.num_chats)
    (htab : chat_table g1 = ((chat_table g_c).set k Group_c.zero).take g1.num_chats)
    (j : Nat) :
    (chat_table g1)[j]? =
      if j < g1.num_chats then (if j = k then some Group_c.zero else (chat_table g_c)[j]?)
      else none := by
  rw [htab]
  exact take_set_getElem? _ _ _ _ _ (by rw [chat_table_length g_c hblock]; exact hk)


/-! ## `temp_c_add_groupchat`: lemmas -/

/-- C1, at the failing input: on the empty registry with the allocation succeeding
`create_group_chat` does not fail, it returns the handle 0 of a fresh slot; yet
`temp_c_add_groupchat` returns -1, not a handle, and leaves the table one slot
long with that slot free, since `get_group_c` rejects the fresh slot of status
NONE. -/
theorem temp_c_add_groupchat_empty_registry (junk : Group_c) :
    create_group_chat true junk
        { m := 1, chats := [], num_chats := 0, cons := [], num_cons := 0 } =
      .done ({ m := 1, chats := [Group_c.zero], num_chats := 1, cons := [], num_cons := 0 },
             0) ∧
    temp_c_add_groupchat true junk
        { m := 1, chats := [], num_chats := 0, cons := [], num_cons := 0 } =
      .done ({ m := 1, chats := [Group_c.zero], num_chats := 1, cons := [], num_cons := 0 },
             -1) ∧
    chat_live { m := 1, chats := [Group_c.zero], num_chats := 1, cons := [], num_cons := 0 }
      0 = false :=
  ⟨rfl, rfl, rfl⟩

/-- C2, at the failing input: three successive creations from the empty registry
of `new_groupchats`, every allocation succeeding, return -1, -1, -1 and not the
handles 0, 1, 2. -/
theorem add_groupchats_three_from_empty :
    new_groupchats true 1 =
        some { m := 1, chats := [], num_chats := 0, cons := [], num_cons := 0 } ∧
      add_groupchats Group_c.zero 3
          { m := 1, chats := [], num_chats := 0, cons := [], num_cons := 0 } =
        .done [-1, -1, -1] := by
  decide

/-! ## C3: `create_group_con` -/

/-- C3: on a well-formed connection table `create_group_con` returns the lowest
index whose slot has status NONE when there is one, and leaves the registry as it
is; when no slot is free and the allocation succeeds it returns the old length, the
table is the old table with one zero slot appended; it returns -1 only when no slot
is free and the allocation fails, and then the registry is as before.  It always
returns. -/
theorem create_group_con_first_fit (ok : Bool) (junk : Group_Connection)
    (g_c : Group_Chats) (hwf : cons_wf g_c) :
    (∀ k : Nat, con_free g_c k = true → (∀ j, j < k → con_free g_c j = false) →
        create_group_con ok junk g_c = .done (g_c, (k : Int))) ∧
    ((∀ j, con_free g_c j = false) → ok = true →
        ∃ g1, create_group_con ok junk g_c = .done (g1, (g_c.num_cons : Int)) ∧
          g1.num_cons = g_c.num_cons + 1 ∧
          con_table g1 = con_table g_c ++ [Group_Connection.zero]) ∧
    (∀ g1, create_group_con ok junk g_c = .done (g1, -1) →
        ok = false ∧ (∀ j, con_free g_c j = false) ∧ g1 = g_c) ∧
    (∃ r, create_group_con ok junk g_c = .done r) := by
  rcases create_group_con_cases ok junk g_c hwf.1 hwf.2 with
    ⟨k0, hk0, hmin, e⟩ | ⟨hnone, hok, g1, e, hn, _, htab, _⟩ | ⟨hnone, hok, e⟩
  · refine ⟨?_, ?_, ?_, ⟨_, e⟩⟩
    · intro k hk hkmin
      have : k = k0 := by
        rcases Nat.lt_trichotomy k k0 with h | h | h
        · rw [hmin k h] at hk; cases hk
        · exact h
        · rw [hkmin k0 h] at hk0; cases hk0
      rw [this]
      exact e
    · intro hnone
      rw [hnone k0] at hk0
      cases hk0
    · intro g1 e1
      rw [e] at e1
      injection e1 with e1
      injection e1 with _ e2
      omega
  · refine ⟨?_, ?_, ?_, ⟨_, e⟩⟩
    · intro k hk _
      rw [hnone k] at hk
      cases hk
    · intro _ _
      exact ⟨g1, e, hn, htab⟩
    · intro g2 e1
      rw [e] at e1
      injection e1 with e1
      injection e1 with _ e2
      omega
  · refine ⟨?_, ?_, ?_, ⟨_, e⟩⟩
    · intro k hk _
      rw [hnone k] at hk
      cases hk
    · intro _ hok2
      rw [hok] at hok2
      cases hok2
    · intro g2 e1
      rw [e] at e1
      injection e1 with e1
      injection e1 with e2 _
      exact ⟨hok, hnone, e2.symm⟩

/-- Witness for C3: a table of two slots, the second one free. -/
theorem create_group_con_first_fit_witness :
    cons_wf { m := 1, chats := [], num_chats := 0, cons := [⟨1⟩, ⟨0⟩], num_cons := 2 } ∧
    create_group_con true ⟨7⟩
        { m := 1, chats := [], num_chats := 0, cons := [⟨1⟩, ⟨0⟩], num_cons := 2 } =
      .done ({ m := 1, chats := [], num_chats := 0, cons := [⟨1⟩, ⟨0⟩], num_cons := 2 },
             ((1 : Nat) : Int)) :=
  ⟨by decide,
   (create_group_con_first_fit true ⟨7⟩
      { m := 1, chats := [], num_chats := 0, cons := [⟨1⟩, ⟨0⟩], num_cons := 2 }
      (by decide)).1 1 (by decide) (by decide)⟩

/-! ## C4: the length after `wipe_group_chat` -/

/-- C4: on a well-formed chat table and a live handle, `wipe_group_chat` returns 0
and afterwards the live slots are the other live slots of before, at their old
indices; the table length is one more than the highest index of a live slot, and 0
when no slot is live.  So wiping the highest live handle leaves the length at the
next lower live handle plus one (0 when there is none), and wiping a handle that is
not the last slot of a table whose last slot is live leaves the length as it was. -/
theorem wipe_group_chat_length (ok : Bool) (junk : Group_c) (g_c : Group_Chats)
    (groupnumber : Int) (hwf : chats_wf g_c) (hint : is_int groupnumber)
    (hlive : groupnumber_not_valid g_c groupnumber = .done 0) :
    ∃ g1, wipe_group_chat ok junk g_c groupnumber = .done (g1, 0) ∧
      (∀ j, chat_live g1 j = (decide (j ≠ groupnumber.toNat) && chat_live g_c j)) ∧
      (∀ k, chat_live g1 k = true → (∀ j, k < j → chat_live g1 j = false) →
        g1.num_chats = k + 1) ∧
      ((∀ j, chat_live g1 j = false) → g1.num_chats = 0) ∧
      (∀ k, (∀ j, groupnumber.toNat < j → chat_live g_c j = false) →
        k < groupnumber.toNat → chat_live g_c k = true →
        (∀ j, k < j → j < groupnumber.toNat → chat_live g_c j = false) →
        g1.num_chats = k + 1) ∧
      ((∀ j, groupnumber.toNat < j → chat_live g_c j = false) →
        (∀ j, j < groupnumber.toNat → chat_live g_c j = false) → g1.num_chats = 0) ∧
      (groupnumber.toNat + 1 < g_c.num_chats →
        chat_live g_c (g_c.num_chats - 1) = true → g1.num_chats = g_c.num_chats) := by
  obtain ⟨h0, hl⟩ := (groupnumber_live_iff g_c groupnumber hwf hint).1 hlive
  obtain ⟨g1, e, hle, hb1, htab, hcut, hlast, _, _, _⟩ :=
    wipe_group_chat_live ok junk g_c groupnumber hwf.1 (le_of_lt hwf.2) hint.2 h0 hl
  have hk := chat_live_lt g_c _ hl
  have hslot := wipe_group_chat_slots g_c g1 groupnumber.toNat hwf.1 hk htab
  -- the live slots afterwards
  have hlive1 : ∀ j, chat_live g1 j =
      (decide (j ≠ groupnumber.toNat) && chat_live g_c j) := by
    intro j
    by_cases hj : j < g1.num_chats
    · by_cases hjk : j = groupnumber.toNat
      · have h1 : (chat_table g1)[j]? = some Group_c.zero := by
          rw [hslot j, if_pos hj, if_pos hjk]
        rw [chat_live_of_getElem? g1 j _ h1]
        simp [hjk, Group_c.zero, GROUPCHAT_STATUS_NONE]
      · have h1 : (chat_table g1)[j]? = (chat_table g_c)[j]? := by
          rw [hslot j, if_pos hj, if_neg hjk]
        unfold chat_live
        rw [h1]
        simp [hjk]
    · have h1 : chat_live g1 j = false := by
        cases hc : chat_live g1 j with
        | false => rfl
        | true => exact absurd (chat_live_lt g1 j hc) hj
      rw [h1]
      by_cases hjk : j = groupnumber.toNat
      · simp [hjk]
      · by_cases hjn : j < g_c.num_chats
        · rcases hcut j (by omega) hjn with h | h
          · exact absurd h hjk
          · rw [chat_free_not_live g_c j h]
            simp
        · have : chat_live g_c j = false := by
            cases hc : chat_live g_c j with
            | false => rfl
            | true => exact absurd (chat_live_lt g_c j hc) hjn
          rw [this]
          simp
  -- the length is fixed by the highest live slot
  have hlen : ∀ k, chat_live g1 k = true → (∀ j, k < j → chat_live g1 j = false) →
      g1.num_chats = k + 1 := by
    intro k hk1 hk2
    have hlt := chat_live_lt g1 k hk1
    rcases hlast with h | h
    · omega
    · by_contra hne
      have := hk2 (g1.num_chats - 1) (by omega)
      rw [this] at h
      cases h
  have hzero : (∀ j, chat_live g1 j = false) → g1.num_chats = 0 := by
    intro hall
    rcases hlast with h | h
    · exact h
    · rw [hall] at h
      cases h
  refine ⟨g1, e, hlive1, hlen, hzero, ?_, ?_, ?_⟩
  · intro k hhigh hkl hklive hgap
    apply hlen k
    · rw [hlive1 k, hklive]
      simp
      omega
    · intro j hj
      rw [hlive1 j]
      by_cases hjk : j = groupnumber.toNat
      · simp [hjk]
      · by_cases hjl : j < groupnumber.toNat
        · rw [hgap j hj hjl]
          simp
        · rw [hhigh j (by omega)]
          simp
  · intro hhigh hlow
    apply hzero
    intro j
    rw [hlive1 j]
    by_cases hjk : j = groupnumber.toNat
    · simp [hjk]
    · by_cases hjl : j < groupnumber.toNat
      · rw [hlow j hjl]
        simp
      · rw [hhigh j (by omega)]
        simp
  · intro hnl hlastlive
    apply le_antisymm hle
    by_contra hcon
    rcases hcut (g_c.num_chats - 1) (by omega) (by omega) with h | h
    · omega
    · rw [chat_free_not_live g_c _ h] at hlastlive
      cases hlastlive

/-- Witness for C4: three slots, live, free, live; wiping handle 2 leaves length 1. -/
theorem wipe_group_chat_length_witness :
    ∃ g1, wipe_group_chat true Group_c.zero
        { m := 1, chats := [⟨1, [], 0⟩, ⟨0, [], 0⟩, ⟨1, [], 0⟩], num_chats := 3,
          cons := [], num_cons := 0 } 2 = .done (g1, 0) ∧
      g1.num_chats = 0 + 1 := by
  obtain ⟨g1, e, _, _, _, h, _, _⟩ :=
    wipe_group_chat_length true Group_c.zero
      { m := 1, chats := [⟨1, [], 0⟩, ⟨0, [], 0⟩, ⟨1, [], 0⟩], num_chats := 3,
        cons := [], num_cons := 0 } 2 (by decide) (by decide) (by decide)
  refine ⟨g1, e, h 0 ?_ (by decide) (by decide) ?_⟩
  · intro j hj
    have h2 : ((2 : Int).toNat) = 2 := rfl
    rw [h2] at hj
    cases hc : chat_live _ j with
    | false => rfl
    | true =>
      have := chat_live_lt _ j hc
      simp only [] at this
      omega
  · intro j hj1 hj2
    have h2 : ((2 : Int).toNat) = 2 := rfl
    rw [h2] at hj2
    have : j = 1 := by omega
    subst this
    decide

/-! ## C5: a wiped handle is the next one created -/

/-- C5: on a well-formed chat table, for a live handle with no free slot below it,
`wipe_group_chat` followed by `create_group_chat` with the allocation succeeding
returns the same handle again, and the table after the creation is no longer than
the table before the wipe. -/
theorem wipe_then_create_group_chat (ok : Bool) (junk junk1 : Group_c)
    (g_c : Group_Chats) (groupnumber : Int) (hwf : chats_wf g_c)
    (hint : is_int groupnumber)
    (hlive : groupnumber_not_valid g_c groupnumber = .done 0)
    (hbelow : ∀ j, j < groupnumber.toNat → chat_free g_c j = false) :
    ∃ g1 g2, wipe_group_chat ok junk g_c groupnumber = .done (g1, 0) ∧
      create_group_chat true junk1 g1 = .done (g2, groupnumber) ∧
      g2.num_chats ≤ g_c.num_chats := by
  obtain ⟨h0, hl⟩ := (groupnumber_live_iff g_c groupnumber hwf hint).1 hlive
  obtain ⟨g1, e, hle, hb1, htab, hcut, _, _, _, _⟩ :=
    wipe_group_chat_live ok junk g_c groupnumber hwf.1 (le_of_lt hwf.2) hint.2 h0 hl
  have hk := chat_live_lt g_c _ hl
  have hslot := wipe_group_chat_slots g_c g1 groupnumber.toNat hwf.1 hk htab
  have hcast : ((groupnumber.toNat : Nat) : Int) = groupnumber := Int.toNat_of_nonneg h0
  -- below the handle nothing is free afterwards either
  have hbelow1 : ∀ j, j < groupnumber.toNat → chat_free g1 j = false := by
    intro j hj
    cases hc : chat_free g1 j with
    | false => rfl
    | true =>
      have hj1 := chat_free_lt g1 j hc
      have h1 : (chat_table g1)[j]? = (chat_table g_c)[j]? := by
        rw [hslot j, if_pos hj1, if_neg (by omega)]
      have : chat_free g_c j = true := by
        unfold chat_free at hc ⊢
        rw [← h1]
        exact hc
      rw [hbelow j hj] at this
      cases this
  -- the handle itself is free afterwards when it is still inside the table
  have hself : groupnumber.toNat < g1.num_chats → chat_free g1 groupnumber.toNat = true := by
    intro hj
    have h1 : (chat_table g1)[groupnumber.toNat]? = some Group_c.zero := by
      rw [hslot _, if_pos hj, if_pos rfl]
    rw [chat_free_of_getElem? g1 _ _ h1]
    simp [Group_c.zero, GROUPCHAT_STATUS_NONE]
  have hge : groupnumber.toNat ≤ g1.num_chats := by
    by_contra hcon
    rcases hcut g1.num_chats (le_refl _) (by omega) with h | h
    · omega
    · rw [hbelow g1.num_chats (by omega)] at h
      cases h
  rcases create_group_chat_cases true junk1 g1 hb1 (by have := hwf.2; omega) with
    ⟨k0, hk0, hmin, e1⟩ | ⟨hnone, _, g2, e1, hn, _, _, _⟩ | ⟨_, hok, _⟩
  · have hk0eq : k0 = groupnumber.toNat := by
      rcases Nat.lt_trichotomy k0 groupnumber.toNat with h | h | h
      · rw [hbelow1 k0 h] at hk0; cases hk0
      · exact h
      · have := chat_free_lt g1 k0 hk0
        rw [hmin _ h] at hself
        exact absurd (hself (by omega)) (by simp)
    refine ⟨g1, g1, e, ?_, hle⟩
    rw [e1, hk0eq, hcast]
  · have heq : g1.num_chats = groupnumber.toNat := by
      apply le_antisymm _ hge
      by_contra hcon
      rw [hnone] at hself
      exact absurd (hself (by omega)) (by simp)
    refine ⟨g1, g2, e, ?_, by omega⟩
    rw [e1, heq, hcast]
  · cases hok

/-- Witness for C5: two live slots, handle 1 is wiped and created again. -/
theorem wipe_then_create_group_chat_witness :
    ∃ g1 g2, wipe_group_chat true Group_c.zero
        { m := 1, chats := [⟨1, [], 0⟩, ⟨1, [], 0⟩], num_chats := 2,
          cons := [], num_cons := 0 } 1 = .done (g1, 0) ∧
      create_group_chat true Group_c.zero g1 = .done (g2, 1) ∧
      g2.num_chats ≤ 2 :=
  wipe_then_create_group_chat true Group_c.zero Group_c.zero
    { m := 1, chats := [⟨1, [], 0⟩, ⟨1, [], 0⟩], num_chats := 2,
      cons := [], num_cons := 0 } 1 (by decide) (by decide) (by decide) (by decide)

/-! ## C6, C7: connection handles -/

/-- C7: on a well-formed connection table and for every `int` handle,
`get_con_group` returns a slot exactly when the handle is at least 0, below the
table length and names a slot of status other than NONE, and the slot is the one at
that index; on every other handle it returns NULL.  It never reads outside the
block: the outcome is never a fault. -/
theorem get_con_group_result (g_c : Group_Chats) (con_number : Int)
    (hwf : cons_wf g_c) (hint : is_int con_number) :
    get_con_group g_c con_number =
      .done (if 0 ≤ con_number ∧ con_number < (g_c.num_cons : Int) ∧
                con_live g_c con_number.toNat = true
             then some con_number else none) := by
  unfold get_con_group
  rw [con_number_not_valid_eq g_c con_number hwf.1 (le_of_lt hwf.2) hint.1 hint.2]
  by_cases h : 0 ≤ con_number ∧ con_live g_c con_number.toNat = true
  · have hlt := ((con_live_iff g_c _).1 h.2).1
    have h2 : 0 ≤ con_number ∧ con_number < (g_c.num_cons : Int) ∧
        con_live g_c con_number.toNat = true := ⟨h.1, by omega, h.2⟩
    rw [if_pos h, if_pos h2]
    simp
  · have h2 : ¬ (0 ≤ con_number ∧ con_number < (g_c.num_cons : Int) ∧
        con_live g_c con_number.toNat = true) := fun hh => h ⟨hh.1, hh.2.2⟩
    rw [if_neg h, if_neg h2]
    simp

/-- Witness for C7: the handle 5 on a table of one live slot. -/
theorem get_con_group_result_witness :
    get_con_group { m := 1, chats := [], num_chats := 0, cons := [⟨1⟩], num_cons := 1 } 5 =
      .done none :=
  get_con_group_result
    { m := 1, chats := [], num_chats := 0, cons := [⟨1⟩], num_cons := 1 } 5
    (by decide) (by decide)

/-! ## C8: a wiped chat handle is invalid -/

/-- C8: on a well-formed chat table and a live handle, after the successful
`wipe_group_chat` the handle is invalid: `get_group_c` returns NULL for it, a second
`wipe_group_chat` returns -1 and changes nothing, and when the index is still inside
the table its slot is the zero record (status NONE, no peer block, no peers). -/
theorem wipe_group_chat_invalidates (ok : Bool) (junk : Group_c) (g_c : Group_Chats)
    (groupnumber : Int) (hwf : chats_wf g_c) (hint : is_int groupnumber)
    (hlive : groupnumber_not_valid g_c groupnumber = .done 0) :
    ∃ g1, wipe_group_chat ok junk g_c groupnumber = .done (g1, 0) ∧
      get_group_c g1 groupnumber = .done none ∧
      (∀ ok1 junk1, wipe_group_chat ok1 junk1 g1 groupnumber = .done (g1, -1)) ∧
      (groupnumber.toNat < g1.num_chats →
        (chat_table g1)[groupnumber.toNat]? =
          some { status := GROUPCHAT_STATUS_NONE, group := [], numpeers := 0 }) := by
  obtain ⟨h0, hl⟩ := (groupnumber_live_iff g_c groupnumber hwf hint).1 hlive
  obtain ⟨g1, e, hle, hb1, htab, _, _, _, _, _⟩ :=
    wipe_group_chat_live ok junk g_c groupnumber hwf.1 (le_of_lt hwf.2) hint.2 h0 hl
  have hk := chat_live_lt g_c _ hl
  have hslot := wipe_group_chat_slots g_c g1 groupnumber.toNat hwf.1 hk htab
  have hint1 : g1.num_chats ≤ 2147483648 := by have := hwf.2; omega
  have hin : groupnumber.toNat < g1.num_chats →
      (chat_table g1)[groupnumber.toNat]? = some Group_c.zero := by
    intro hj
    rw [hslot _, if_pos hj, if_pos rfl]
  have hdead : ¬ (0 ≤ groupnumber ∧ chat_live g1 groupnumber.toNat = true) := by
    rintro ⟨_, hl1⟩
    have hj := chat_live_lt g1 _ hl1
    rw [chat_live_of_getElem? g1 _ _ (hin hj)] at hl1
    simp [Group_c.zero, GROUPCHAT_STATUS_NONE] at hl1
  refine ⟨g1, e, ?_, ?_, hin⟩
  · unfold get_group_c
    rw [groupnumber_not_valid_eq g1 groupnumber hb1 hint1 hint.1 hint.2, if_neg hdead]
    simp
  · intro ok1 junk1
    exact wipe_group_chat_invalid ok1 junk1 g1 groupnumber hb1 hint1 hint.1 hint.2 hdead

/-- Witness for C8: two live slots, handle 0 is wiped and stays inside the table. -/
theorem wipe_group_chat_invalidates_witness :
    ∃ g1, wipe_group_chat true Group_c.zero
        { m := 1, chats := [⟨1, [], 0⟩, ⟨1, [], 0⟩], num_chats := 2,
          cons := [], num_cons := 0 } 0 = .done (g1, 0) ∧
      get_group_c g1 0 = .done none :=
  let ⟨g1, e, h, _⟩ := wipe_group_chat_invalidates true Group_c.zero
    { m := 1, chats := [⟨1, [], 0⟩, ⟨1, [], 0⟩], num_chats := 2,
      cons := [], num_cons := 0 } 0 (by decide) (by decide) (by decide)
  ⟨g1, e, h⟩

/-! ## C9, C10: `addpeer` -/

/-- C9: on a well-formed chat, two calls of `addpeer` with the same identity, the
allocation of the first succeeding, return the same peer number, which is not -1,
and the second call leaves the chat, its peer list with it, exactly as the first
call left it, whatever the clock and the allocator do in the second call. -/
theorem addpeer_twice (junk junk1 : Group_Peer) (unix_time unix_time1 : Nat)
    (ok1 : Bool) (chat : Group_c) (client_id : Client_Id) (hwf : peers_wf chat) :
    ∃ chat1 peernum, addpeer true junk unix_time chat client_id = .done (chat1, peernum) ∧
      0 ≤ peernum ∧
      addpeer ok1 junk1 unix_time1 chat1 client_id = .done (chat1, peernum) := by
  have hfound : ∀ (c : Group_c) (k : Nat) (o : Bool) (jk : Group_Peer) (t : Nat),
      peer_in_chat c client_id = .done (k : Int) →
      addpeer o jk t c client_id = .done (c, (k : Int)) := by
    intro c k o jk t e
    unfold addpeer
    rw [e]
    have : ((k : Int) ≠ -1) := by omega
    simp only [this, ne_eq, not_false_eq_true, if_true]
  rcases addpeer_cases true junk unix_time chat client_id hwf.1 hwf.2 with
    ⟨k, p, h1, h2, h3, e⟩ | ⟨hnone, _, chat1, e, hn, hlen, hlist, _⟩ | ⟨_, hok, _⟩
  · refine ⟨chat, (k : Int), e, by omega, ?_⟩
    rcases peer_in_chat_cases chat client_id hwf.1 (le_of_lt hwf.2) with
      ⟨k1, p1, g1, g2, g3, e1⟩ | ⟨g1, _⟩
    · have : k1 = k := by
        rcases Nat.lt_trichotomy k1 k with h | h | h
        · exact absurd g2 (h3 k1 p1 h g1)
        · exact h
        · exact absurd h2 (g3 k p h h1)
      rw [this] at e1
      exact hfound chat k ok1 junk1 unix_time1 e1
    · exact absurd h2 (g1 p (List.getElem?_mem h1))
  · refine ⟨chat1, (chat.numpeers : Int), e, by omega, ?_⟩
    have hlen0 : (peer_list chat).length = chat.numpeers := by
      unfold peer_list
      rw [List.length_take]
      have := hwf.1
      omega
    rcases peer_in_chat_cases chat1 client_id (by omega) (by have := hwf.2; omega) with
      ⟨k1, p1, g1, g2, g3, e1⟩ | ⟨g1, _⟩
    · have : k1 = chat.numpeers := by
        rcases Nat.lt_trichotomy k1 chat.numpeers with h | h | h
        · rw [hlist, List.getElem?_append_left (by omega)] at g1
          exact absurd g2 (hnone p1 (List.getElem?_mem g1))
        · exact h
        · have hnew : (peer_list chat1)[chat.numpeers]? =
              some { client_id := client_id, last_recv := unix_time,
                     last_recv_msgping := unix_time } := by
            rw [hlist, List.getElem?_append_right (by omega), hlen0]
            simp
          exact absurd rfl (g3 _ _ h hnew)
      rw [this] at e1
      exact hfound chat1 _ ok1 junk1 unix_time1 e1
    · have hmem : Group_Peer.mk client_id unix_time unix_time ∈ peer_list chat1 := by
        rw [hlist]
        simp
      exact absurd rfl (g1 _ hmem)
  · cases hok

/-- Witness for C9: a chat with one peer, another identity is added twice. -/
theorem addpeer_twice_witness :
    ∃ chat1 peernum,
      addpeer true Group_Peer.zero 5 ⟨1, [⟨[1], 2, 2⟩], 1⟩ [2] = .done (chat1, peernum) ∧
      0 ≤ peernum ∧
      addpeer true Group_Peer.zero 9 chat1 [2] = .done (chat1, peernum) :=
  addpeer_twice Group_Peer.zero Group_Peer.zero 5 9 true ⟨1, [⟨[1], 2, 2⟩], 1⟩ [2]
    (by decide)

/-- C10: on a well-formed chat whose peer list holds no entry with the identity,
`addpeer` with the allocation succeeding returns the old peer count and the peer
list is the old list with one entry appended, carrying the identity and the current
time in both `last_recv` and `last_recv_msgping`; with the allocation failing it
returns -1 and the chat is as before; it returns -1 in no other case. -/
theorem addpeer_new_identity (ok : Bool) (junk : Group_Peer) (unix_time : Nat)
    (chat : Group_c) (client_id : Client_Id) (hwf : peers_wf chat)
    (hnew : ∀ q ∈ peer_list chat, q.client_id ≠ client_id) :
    (ok = true →
      ∃ chat1, addpeer ok junk unix_time chat client_id =
          .done (chat1, (chat.numpeers : Int)) ∧
        chat1.numpeers = chat.numpeers + 1 ∧
        peer_list chat1 = peer_list chat ++
          [{ client_id := client_id, last_recv := unix_time,
             last_recv_msgping := unix_time }] ∧
        chat1.status = chat.status) ∧
    (ok = false → addpeer ok junk unix_time chat client_id = .done (chat, -1)) ∧
    (∀ chat1, addpeer ok junk unix_time chat client_id = .done (chat1, -1) →
      ok = false ∧ chat1 = chat) := by
  rcases addpeer_cases ok junk unix_time chat client_id hwf.1 hwf.2 with
    ⟨k, p, h1, h2, _, _⟩ | ⟨_, hok, chat1, e, hn, _, hlist, hst⟩ | ⟨_, hok, e⟩
  · exact absurd h2 (hnew p (List.getElem?_mem h1))
  · refine ⟨fun _ => ⟨chat1, e, hn, hlist, hst⟩, ?_, ?_⟩
    · intro h
      rw [hok] at h
      cases h
    · intro chat2 e1
      rw [e] at e1
      injection e1 with e1
      injection e1 with _ e2
      omega
  · refine ⟨?_, fun _ => e, ?_⟩
    · intro h
      rw [hok] at h
      cases h
    · intro chat2 e1
      rw [e] at e1
      injection e1 with e1
      injection e1 with e2 _
      exact ⟨hok, e2.symm⟩

/-- Witness for C10: a chat with one peer, a new identity is added at time 5. -/
theorem addpeer_new_identity_witness :
    addpeer false Group_Peer.zero 5 ⟨1, [⟨[1], 2, 2⟩], 1⟩ [2] =
      .done (⟨1, [⟨[1], 2, 2⟩], 1⟩, -1) :=
  (addpeer_new_identity false Group_Peer.zero 5 ⟨1, [⟨[1], 2, 2⟩], 1⟩ [2]
    (by decide) (by decide)).2.1 rfl

/-! ## Chat table: further lemmas -/

/-- The scan of `create_group_chat` finds the lowest free slot, also on a table of
`2^31` slots. -/
theorem create_group_chat_found (ok : Bool) (junk : Group_c) (g_c : Group_Chats)
    (hblock : g_c.num_chats ≤ g_c.chats.length) (hint : g_c.num_chats ≤ 2147483648)
    (k : Nat) (hk : chat_free g_c k = true) (hmin : ∀ j, j < k → chat_free g_c j = false) :
    create_group_chat ok junk g_c = .done (g_c, (k : Int)) := by
  unfold create_group_chat
  rw [create_group_chat_loop_eq]
  obtain ⟨hkn, ck, hck, hsk⟩ := (chat_free_iff g_c k).1 hk
  rcases scan_loop_spec (fun c => decide (c.status = GROUPCHAT_STATUS_NONE)) g_c.chats
      g_c.num_chats 0 (by omega) with ⟨k0, c, e, _, h2, h3, h4, h5⟩ | ⟨e, h5⟩
  · have hk0 : chat_free g_c k0 = true := by
      rw [chat_free_iff]
      exact ⟨by omega, c, h3, by simpa using h4⟩
    have : k0 = k := by
      rcases Nat.lt_trichotomy k0 k with h | h | h
      · rw [hmin k0 h] at hk0; cases hk0
      · exact h
      · have := h5 k ck (Nat.zero_le _) h hck
        simp [hsk] at this
    rw [e]
    simp only []
    rw [to_int_of_lt k0 (by omega), this]
  · have := h5 k ck (Nat.zero_le _) (by omega) hck
    simp [hsk] at this

/-- After a successful `wipe_group_chat` the live slots are the other live slots of
before, and the free slots inside the new table are the wiped slot and the free
slots of before. -/
theorem wipe_group_chat_pattern (g_c g1 : Group_Chats) (k : Nat)
    (hblock : g_c.num_chats ≤ g_c.chats.length) (hk : k < g_c.num_chats)
    (htab : chat_table g1 = ((chat_table g_c).set k Group_c.zero).take g1.num_chats)
    (hcut : ∀ j, g1.num_chats ≤ j → j < g_c.num_chats → j = k ∨ chat_free g_c j = true) :
    (∀ j, chat_live g1 j = (decide (j ≠ k) && chat_live g_c j)) ∧
    (∀ j, chat_free g1 j =
      (decide (j < g1.num_chats) && (decide (j = k) || chat_free g_c j))) := by
  have hslot := wipe_group_chat_slots g_c g1 k hblock hk htab
  constructor
  · intro j
    by_cases hj : j < g1.num_chats
    · by_cases hjk : j = k
      · have h1 : (chat_table g1)[j]? = some Group_c.zero := by
          rw [hslot j, if_pos hj, if_pos hjk]
        rw [chat_live_of_getElem? g1 j _ h1]
        simp [hjk, Group_c.zero, GROUPCHAT_STATUS_NONE]
      · have h1 : (chat_table g1)[j]? = (chat_table g_c)[j]? := by
          rw [hslot j, if_pos hj, if_neg hjk]
        unfold chat_live
        rw [h1]
        simp [hjk]
    · have h1 : chat_live g1 j = false := by
        cases hc : chat_live g1 j with
        | false => rfl
        | true => exact absurd (chat_live_lt g1 j hc) hj
      rw [h1]
      by_cases hjk : j = k
      · simp [hjk]
      · by_cases hjn : j < g_c.num_chats
        · rcases hcut j (by omega) hjn with h | h
          · exact absurd h hjk
          · rw [chat_free_not_live g_c j h]
            simp
        · have : chat_live g_c j = false := by
            cases hc : chat_live g_c j with
            | false => rfl
            | true => exact absurd (chat_live_lt g_c j hc) hjn
          rw [this]
          simp
  · intro j
    by_cases hj : j < g1.num_chats
    · by_cases hjk : j = k
      · have h1 : (chat_table g1)[j]? = some Group_c.zero := by
          rw [hslot j, if_pos hj, if_pos hjk]
        rw [chat_free_of_getElem? g1 j _ h1]
        subst hjk
        simp [hj, Group_c.zero, GROUPCHAT_STATUS_NONE]
      · have h1 : (chat_table g1)[j]? = (chat_table g_c)[j]? := by
          rw [hslot j, if_pos hj, if_neg hjk]
        unfold chat_free
        rw [h1]
        simp [hj, hjk]
    · have h1 : chat_free g1 j = false := by
        cases hc : chat_free g1 j with
        | false => rfl
        | true => exact absurd (chat_free_lt g1 j hc) hj
      rw [h1]
      simp [hj]

/-- Wiping a live handle with no free slot below it and creating again hands out
the same handle, and its slot is the zero record. -/
theorem wipe_create_same_handle (ok : Bool) (junk junk1 : Group_c) (g_c : Group_Chats)
    (groupnumber : Int)
    (hblock : g_c.num_chats ≤ g_c.chats.length) (hint : g_c.num_chats ≤ 2147483648)
    (hhi : groupnumber ≤ 2147483647) (h0 : 0 ≤ groupnumber)
    (hl : chat_live g_c groupnumber.toNat = true)
    (hbelow : ∀ j, j < groupnumber.toNat → chat_free g_c j = false) :
    ∃ g1 g2, wipe_group_chat ok junk g_c groupnumber = .done (g1, 0) ∧
      create_group_chat true junk1 g1 = .done (g2, groupnumber) ∧
      g2.num_chats ≤ g_c.num_chats ∧
      (chat_table g2)[groupnumber.toNat]? = some Group_c.zero := by
  obtain ⟨g1, e, hle, hb1, htab, hcut, _, _, _, _⟩ :=
    wipe_group_chat_live ok junk g_c groupnumber hblock hint hhi h0 hl
  have hk := chat_live_lt g_c _ hl
  have hslot := wipe_group_chat_slots g_c g1 groupnumber.toNat hblock hk htab
  obtain ⟨_, hfree1⟩ :=
    wipe_group_chat_pattern g_c g1 groupnumber.toNat hblock hk htab hcut
  have hcast : ((groupnumber.toNat : Nat) : Int) = groupnumber := Int.toNat_of_nonneg h0
  have hbelow1 : ∀ j, j < groupnumber.toNat → chat_free g1 j = false := by
    intro j hj
    rw [hfree1 j, hbelow j hj]
    have : ¬ j = groupnumber.toNat := by omega
    simp [this]
  have hge : groupnumber.toNat ≤ g1.num_chats := by
    by_contra hcon
    rcases hcut g1.num_chats (le_refl _) (by omega) with h | h
    · omega
    · rw [hbelow g1.num_chats (by omega)] at h
      cases h
  by_cases hin : groupnumber.toNat < g1.num_chats
  · have hself : chat_free g1 groupnumber.toNat = true := by
      rw [hfree1]
      simp [hin]
    refine ⟨g1, g1, e, ?_, hle, ?_⟩
    · have := create_group_chat_found true junk1 g1 hb1 (by omega) _ hself hbelow1
      rw [hcast] at this
      exact this
    · rw [hslot _, if_pos hin, if_pos rfl]
  · have heq : g1.num_chats = groupnumber.toNat := by omega
    rcases create_group_chat_cases true junk1 g1 hb1 (by omega) with
      ⟨k0, hk0, _, _⟩ | ⟨_, _, g2, e1, hn, _, htab2, _⟩ | ⟨_, hok, _⟩
    · have := chat_free_lt g1 k0 hk0
      rw [hbelow1 k0 (by omega)] at hk0
      cases hk0
    · refine ⟨g1, g2, e, ?_, by omega, ?_⟩
      · rw [e1, heq, hcast]
      · rw [htab2, List.getElem?_append_right (by rw [chat_table_length g1 hb1]; omega),
          chat_table_length g1 hb1, heq]
        simp
    · cases hok

/-! ## Connection table: further lemmas -/

/-- A handle is live exactly when the validity check of the source accepts it. -/
theorem con_number_live_iff (g_c : Group_Chats) (con_number : Int)
    (hwf : cons_wf g_c) (hint : is_int con_number) :
    con_number_not_valid g_c con_number = .done 0 ↔
      (0 ≤ con_number ∧ con_live g_c con_number.toNat = true) := by
  rw [con_number_not_valid_eq g_c con_number hwf.1 (le_of_lt hwf.2) hint.1 hint.2]
  by_cases h : 0 ≤ con_number ∧ con_live g_c con_number.toNat = true
  · simp [h]
  · simp only [h, if_false, iff_false]
    intro hcon
    cases hcon

theorem con_free_of_getElem? (g_c : Group_Chats) (k : Nat) (c : Group_Connection)
    (h : (con_table g_c)[k]? = some c) :
    con_free g_c k = decide (c.status = GROUPCON_STATUS_NONE) := by
  unfold con_free
  rw [h]

theorem con_free_lt (g_c : Group_Chats) (k : Nat) (h : con_free g_c k = true) :
    k < g_c.num_cons := ((con_free_iff g_c k).1 h).1

theorem con_free_not_live (g_c : Group_Chats) (k : Nat) (h : con_free g_c k = true) :
    con_live g_c k = false := by
  unfold con_free at h
  unfold con_live
  cases hc : (con_table g_c)[k]? with
  | none => rfl
  | some c =>
    rw [hc] at h
    simp only [] at h ⊢
    simpa using h

theorem con_table_length (g_c : Group_Chats) (h : g_c.num_cons ≤ g_c.cons.length) :
    (con_table g_c).length = g_c.num_cons := by
  unfold con_table
  rw [List.length_take]
  omega

/-- The scan of `create_group_con` finds the lowest free slot, also on a table of
`2^31` slots. -/
theorem create_group_con_found (ok : Bool) (junk : Group_Connection) (g_c : Group_Chats)
    (hblock : g_c.num_cons ≤ g_c.cons.length) (hint : g_c.num_cons ≤ 2147483648)
    (k : Nat) (hk : con_free g_c k = true) (hmin : ∀ j, j < k → con_free g_c j = false) :
    create_group_con ok junk g_c = .done (g_c, (k : Int)) := by
  unfold create_group_con
  rw [create_group_con_loop_eq]
  obtain ⟨hkn, ck, hck, hsk⟩ := (con_free_iff g_c k).1 hk
  rcases scan_loop_spec (fun c => decide (c.status = GROUPCON_STATUS_NONE)) g_c.cons
      g_c.num_cons 0 (by omega) with ⟨k0, c, e, _, h2, h3, h4, h5⟩ | ⟨e, h5⟩
  · have hk0 : con_free g_c k0 = true := by
      rw [con_free_iff]
      exact ⟨by omega, c, h3, by simpa using h4⟩
    have : k0 = k := by
      rcases Nat.lt_trichotomy k0 k with h | h | h
      · rw [hmin k0 h] at hk0; cases hk0
      · exact h
      · have := h5 k ck (Nat.zero_le _) h hck
        simp [hsk] at this
    rw [e]
    simp only []
    rw [to_int_of_lt k0 (by omega), this]
  · have := h5 k ck (Nat.zero_le _) (by omega) hck
    simp [hsk] at this

/-! ## Created slots, status writes and peers in place: lemmas -/

/-- With the allocation succeeding `create_group_chat` hands out a free slot of the
table it leaves, the lowest free one. -/
theorem create_group_chat_handle (junk : Group_c) (g_c : Group_Chats) (hwf : chats_wf g_c) :
    ∃ (g1 : Group_Chats) (k : Nat), create_group_chat true junk g_c = .done (g1, (k : Int)) ∧
      k < g1.num_chats ∧ g1.num_chats ≤ g1.chats.length ∧ g1.num_chats ≤ 2147483648 ∧
      chat_free g1 k = true ∧ (∀ j, j < k → chat_free g1 j = false) ∧
      (chat_free g_c k = false → (chat_table g1)[k]? = some Group_c.zero) := by
  rcases create_group_chat_cases true junk g_c hwf.1 hwf.2 with
    ⟨k0, hk0, hmin, e⟩ | ⟨hnone, _, g1, e, hn, hlen, htab, _⟩ | ⟨_, hok, _⟩
  · refine ⟨g_c, k0, e, chat_free_lt g_c k0 hk0, hwf.1, le_of_lt hwf.2, hk0, hmin, ?_⟩
    intro h
    rw [h] at hk0
    cases hk0
  · have hslot : (chat_table g1)[g_c.num_chats]? = some Group_c.zero := by
      rw [htab, List.getElem?_append_right (by rw [chat_table_length g_c hwf.1]),
        chat_table_length g_c hwf.1]
      simp
    refine ⟨g1, g_c.num_chats, e, by omega, by omega, by have := hwf.2; omega, ?_, ?_,
      fun _ => hslot⟩
    · rw [chat_free_of_getElem? g1 _ _ hslot]
      simp [Group_c.zero, GROUPCHAT_STATUS_NONE]
    · intro j hj
      have h1 : (chat_table g1)[j]? = (chat_table g_c)[j]? := by
        rw [htab, List.getElem?_append_left (by rw [chat_table_length g_c hwf.1]; exact hj)]
      have : chat_free g1 j = chat_free g_c j := by
        unfold chat_free
        rw [h1]
      rw [this]
      exact hnone j
  · cases hok

/-- Free and live slots depend on the count and on the status at each index only. -/
theorem chat_free_live_congr (g_c g1 : Group_Chats) (j : Nat)
    (hnum : g1.num_chats = g_c.num_chats)
    (hst : (g1.chats[j]?).map Group_c.status = (g_c.chats[j]?).map Group_c.status) :
    chat_free g1 j = chat_free g_c j ∧ chat_live g1 j = chat_live g_c j := by
  unfold chat_free chat_live
  rw [chat_table_getElem?, chat_table_getElem?, hnum]
  by_cases hj : j < g_c.num_chats
  · simp only [hj, if_true]
    cases h1 : g1.chats[j]? with
    | none =>
      cases h2 : g_c.chats[j]? with
      | none => simp
      | some c => rw [h1, h2] at hst; cases hst
    | some c1 =>
      cases h2 : g_c.chats[j]? with
      | none => rw [h1, h2] at hst; cases hst
      | some c =>
        rw [h1, h2] at hst
        simp only [Option.map_some', Option.some.injEq] at hst
        simp [hst]
  · simp [hj]

/-- No path of `addpeer` writes the status of the chat. -/
theorem addpeer_status (ok : Bool) (junk : Group_Peer) (unix_time : Nat) (chat chat1 : Group_c)
    (client_id : Client_Id) (peernum : Int)
    (h : addpeer ok junk unix_time chat client_id = .done (chat1, peernum)) :
    chat1.status = chat.status := by
  unfold addpeer at h
  split at h
  · cases h
  · split at h
    · cases h; rfl
    · split at h
      · cases h; rfl
      · split at h
        · cases h
        · simp only [] at h
          split at h
          · cases h
          · split at h
            · cases h
            · cases h; rfl

/-- The call `addpeer(&g_c->chats[groupnumber], id)` leaves the count, the block
length and every status as they are. -/
theorem addpeer_at_frame (ok : Bool) (junk : Group_Peer) (unix_time : Nat)
    (g_c g1 : Group_Chats) (groupnumber : Int) (client_id : Client_Id) (peernum : Int)
    (h : addpeer_at ok junk unix_time g_c groupnumber client_id = .done (g1, peernum)) :
    g1.num_chats = g_c.num_chats ∧ g1.chats.length = g_c.chats.length ∧
      ∀ j : Nat, (g1.chats[j]?).map Group_c.status = (g_c.chats[j]?).map Group_c.status := by
  unfold addpeer_at at h
  split at h
  · cases h
  · rename_i c hc
    split at h
    · cases h
    · rename_i c1 r hadd
      have hst := addpeer_status ok junk unix_time c c1 client_id r hadd
      split at h
      · cases h
      · rename_i chats1 hw
        cases h
        unfold write at hw
        split at hw
        · rename_i hb
          cases hw
          unfold read at hc
          rw [if_pos hb.1] at hc
          refine ⟨rfl, by simp only [List.length_set], ?_⟩
          intro j
          simp only [List.getElem?_set]
          by_cases hj : groupnumber.toNat = j
          · subst hj
            simp [hb.2, hc, hst]
          · simp [hj]
        · cases hw

/-- The calls of `addpeers_at` leave the count, the block length and every status as
they are. -/
theorem addpeers_at_frame (junk : Group_Peer) (unix_time : Nat) (groupnumber : Int)
    (ids : List Client_Id) (g_c g1 : Group_Chats)
    (h : addpeers_at junk unix_time groupnumber ids g_c = .done g1) :
    g1.num_chats = g_c.num_chats ∧ g1.chats.length = g_c.chats.length ∧
      ∀ j : Nat, (g1.chats[j]?).map Group_c.status = (g_c.chats[j]?).map Group_c.status := by
  induction ids generalizing g_c with
  | nil =>
    unfold addpeers_at at h
    cases h
    exact ⟨rfl, rfl, fun _ => rfl⟩
  | cons client_id rest ih =>
    unfold addpeers_at at h
    split at h
    · cases h
    · rename_i g2 r hstep
      obtain ⟨a1, a2, a3⟩ := addpeer_at_frame true junk unix_time g_c g2 groupnumber
        client_id r hstep
      obtain ⟨b1, b2, b3⟩ := ih g2 h
      exact ⟨b1.trans a1, b2.trans a2, fun j => (b3 j).trans (a3 j)⟩

/-- The status write of `temp_c_add_groupchat` on a slot inside the block returns and
makes that slot live; the other slots, the count and the block length stay. -/
theorem set_status_valid_spec (g_c : Group_Chats) (k : Nat) (hk : k < g_c.chats.length) :
    ∃ g1, set_status_valid g_c (k : Int) = .done g1 ∧
      g1.num_chats = g_c.num_chats ∧ g1.chats.length = g_c.chats.length ∧
      (g1.chats[k]?).map Group_c.status = some GROUPCHAT_STATUS_VALID ∧
      ∀ j, j ≠ k → g1.chats[j]? = g_c.chats[j]? := by
  unfold set_status_valid
  simp only [read, write, Nat.cast_nonneg, if_true, Int.toNat_ofNat, true_and, hk,
    List.getElem?_eq_getElem hk]
  refine ⟨_, rfl, rfl, by simp only [List.length_set], ?_, ?_⟩
  · simp [List.getElem?_set, hk]
  · intro j hj
    have : ¬ k = j := fun h => hj h.symm
    simp [List.getElem?_set, this]

/-! ## Free/live patterns: lemmas -/

theorem trailing_free_zero_of_last (p : List Bool)
    (h : p = [] ∨ p[p.length - 1]? = some false) : trailing_free p = 0 := by
  unfold trailing_free
  rcases List.eq_nil_or_concat p with hp | ⟨l, b, hp⟩
  · rw [hp]
    rfl
  · rcases h with h | h
    · rw [h]
      rfl
    · subst hp
      have hb : b = false := by
        simpa using h
      subst hb
      simp

theorem chat_pattern_getElem? (g_c : Group_Chats) (j : Nat) :
    (chat_pattern g_c)[j]? =
      ((chat_table g_c)[j]?).map (fun c => decide (c.status = GROUPCHAT_STATUS_NONE)) := by
  unfold chat_pattern
  rw [List.getElem?_map]

theorem chat_pattern_length (g_c : Group_Chats) (h : g_c.num_chats ≤ g_c.chats.length) :
    (chat_pattern g_c).length = g_c.num_chats := by
  unfold chat_pattern
  rw [List.length_map, chat_table_length g_c h]

theorem chat_free_eq_pattern (g_c : Group_Chats) (j : Nat) :
    chat_free g_c j = decide ((chat_pattern g_c)[j]? = some true) := by
  rw [chat_pattern_getElem?]
  unfold chat_free
  cases (chat_table g_c)[j]? with
  | none => simp
  | some c => simp

theorem chat_live_eq_pattern (g_c : Group_Chats) (j : Nat) :
    chat_live g_c j = decide ((chat_pattern g_c)[j]? = some false) := by
  rw [chat_pattern_getElem?]
  unfold chat_live
  cases (chat_table g_c)[j]? with
  | none => simp
  | some c => simp

theorem con_pattern_getElem? (g_c : Group_Chats) (j : Nat) :
    (con_pattern g_c)[j]? =
      ((con_table g_c)[j]?).map (fun c => decide (c.status = GROUPCON_STATUS_NONE)) := by
  unfold con_pattern
  rw [List.getElem?_map]

theorem con_pattern_length (g_c : Group_Chats) (h : g_c.num_cons ≤ g_c.cons.length) :
    (con_pattern g_c).length = g_c.num_cons := by
  unfold con_pattern
  rw [List.length_map, con_table_length g_c h]

theorem con_free_eq_pattern (g_c : Group_Chats) (j : Nat) :
    con_free g_c j = decide ((con_pattern g_c)[j]? = some true) := by
  rw [con_pattern_getElem?]
  unfold con_free
  cases (con_table g_c)[j]? with
  | none => simp
  | some c => simp

theorem con_live_eq_pattern (g_c : Group_Chats) (j : Nat) :
    con_live g_c j = decide ((con_pattern g_c)[j]? = some false) := by
  rw [con_pattern_getElem?]
  unfold con_live
  cases (con_table g_c)[j]? with
  | none => simp
  | some c => simp

/-- A table that is empty or ends in a live slot has no trailing free slot. -/
theorem con_trailing_free_zero (g_c : Group_Chats)
    (hblock : g_c.num_cons ≤ g_c.cons.length)
    (h : g_c.num_cons = 0 ∨ con_live g_c (g_c.num_cons - 1) = true) :
    trailing_free (con_pattern g_c) = 0 := by
  apply trailing_free_zero_of_last
  rcases h with h | h
  · left
    apply List.eq_nil_of_length_eq_zero
    rw [con_pattern_length g_c hblock]
    exact h
  · right
    rw [con_pattern_length g_c hblock]
    rw [con_live_eq_pattern] at h
    simpa using h

/-! ## Reachable states: lemmas -/

/-- C11: on a well-formed chat whose peer list holds no identity twice, `addpeer`
with any identity returns, whether it appends the peer, finds it already there or
fails to allocate, and the peer list afterwards again holds no identity twice. -/
theorem addpeer_keeps_identities_unique (ok : Bool) (junk : Group_Peer) (unix_time : Nat)
    (chat : Group_c) (client_id : Client_Id) (hwf : peers_wf chat)
    (huniq : ((peer_list chat).map Group_Peer.client_id).Nodup) :
    ∃ chat1 peernum, addpeer ok junk unix_time chat client_id = .done (chat1, peernum) ∧
      ((peer_list chat1).map Group_Peer.client_id).Nodup := by
  rcases addpeer_cases ok junk unix_time chat client_id hwf.1 hwf.2 with
    ⟨k, _, _, _, _, e⟩ | ⟨hnone, _, chat1, e, _, _, hlist, _⟩ | ⟨_, _, e⟩
  · exact ⟨chat, _, e, huniq⟩
  · refine ⟨chat1, _, e, ?_⟩
    rw [hlist, List.map_append, List.nodup_append]
    refine ⟨huniq, by simp, ?_⟩
    intro a ha hb
    simp only [List.map_cons, List.map_nil, List.mem_singleton] at hb
    obtain ⟨q, hq, hqa⟩ := List.mem_map.1 ha
    exact hnone q hq (hqa.trans hb)
  · exact ⟨chat, _, e, huniq⟩

/-- Witness for C11: a chat with two peers, the identity of the second is added. -/
theorem addpeer_keeps_identities_unique_witness :
    ∃ chat1 peernum,
      addpeer true Group_Peer.zero 5 ⟨1, [⟨[1], 2, 2⟩, ⟨[2], 3, 3⟩], 2⟩ [2] =
        .done (chat1, peernum) ∧
      ((peer_list chat1).map Group_Peer.client_id).Nodup :=
  addpeer_keeps_identities_unique true Group_Peer.zero 5
    ⟨1, [⟨[1], 2, 2⟩, ⟨[2], 3, 3⟩], 2⟩ [2] (by decide) (by decide)

/-! ## C12: the round trip create, add peers, wipe, create -/

/-- C12 as stated fails: on the empty registry `create_group_chat` hands out slot 0
and leaves it free; three peers are added to it; `wipe_group_chat` then returns -1
and wipes nothing, because the slot has status NONE; the next `create_group_chat`
hands out slot 0 again, and its peer list still holds the three peers. -/
theorem round_trip_without_status_write_leaks :
    create_group_chat true Group_c.zero
        { m := 1, chats := [], num_chats := 0, cons := [], num_cons := 0 } =
      .done ({ m := 1, chats := [Group_c.zero], num_chats := 1, cons := [], num_cons := 0 },
             0) ∧
    addpeers_at Group_Peer.zero 5 0 [[1], [2], [3]]
        { m := 1, chats := [Group_c.zero], num_chats := 1, cons := [], num_cons := 0 } =
      .done { m := 1, chats := [⟨0, [⟨[1], 5, 5⟩, ⟨[2], 5, 5⟩, ⟨[3], 5, 5⟩], 3⟩],
              num_chats := 1, cons := [], num_cons := 0 } ∧
    wipe_group_chat true Group_c.zero
        { m := 1, chats := [⟨0, [⟨[1], 5, 5⟩, ⟨[2], 5, 5⟩, ⟨[3], 5, 5⟩], 3⟩],
          num_chats := 1, cons := [], num_cons := 0 } 0 =
      .done ({ m := 1, chats := [⟨0, [⟨[1], 5, 5⟩, ⟨[2], 5, 5⟩, ⟨[3], 5, 5⟩], 3⟩],
               num_chats := 1, cons := [], num_cons := 0 }, -1) ∧
    create_group_chat true Group_c.zero
        { m := 1, chats := [⟨0, [⟨[1], 5, 5⟩, ⟨[2], 5, 5⟩, ⟨[3], 5, 5⟩], 3⟩],
          num_chats := 1, cons := [], num_cons := 0 } =
      .done ({ m := 1, chats := [⟨0, [⟨[1], 5, 5⟩, ⟨[2], 5, 5⟩, ⟨[3], 5, 5⟩], 3⟩],
               num_chats := 1, cons := [], num_cons := 0 }, 0) ∧
    (peer_list ⟨0, [⟨[1], 5, 5⟩, ⟨[2], 5, 5⟩, ⟨[3], 5, 5⟩], 3⟩).length = 3 := by
  decide

/-- C12, amended: on a well-formed registry, `create_group_chat` with the allocation
succeeding hands out a handle; once the status of its slot is set to VALID (the
write `temp_c_add_groupchat` is written to do), whatever peers `addpeer` then adds
to the slot, `wipe_group_chat` succeeds and the next `create_group_chat` hands out
the same handle, whose slot is the zero record: status NONE, no peer block, peer
count 0. -/
theorem round_trip_no_leak (ok : Bool) (junk junk1 junk2 : Group_c) (junkp : Group_Peer)
    (unix_time : Nat) (g_c : Group_Chats) (ids : List Client_Id) (hwf : chats_wf g_c) :
    ∃ g1 groupnumber, create_group_chat true junk g_c = .done (g1, groupnumber) ∧
      0 ≤ groupnumber ∧
      ∃ g2, set_status_valid g1 groupnumber = .done g2 ∧
        ∀ g3, addpeers_at junkp unix_time groupnumber ids g2 = .done g3 →
          ∃ g4 g5, wipe_group_chat ok junk1 g3 groupnumber = .done (g4, 0) ∧
            create_group_chat true junk2 g4 = .done (g5, groupnumber) ∧
            (chat_table g5)[groupnumber.toNat]? =
              some { status := GROUPCHAT_STATUS_NONE, group := [], numpeers := 0 } := by
  obtain ⟨g1, k, e, hk, hb1, hi1, _, hmin, _⟩ := create_group_chat_handle junk g_c hwf
  obtain ⟨g2, e2, hn2, hl2, hst2, hrest2⟩ := set_status_valid_spec g1 k (by omega)
  refine ⟨g1, (k : Int), e, by omega, g2, e2, ?_⟩
  intro g3 e3
  obtain ⟨hn3, hl3, hst3⟩ := addpeers_at_frame junkp unix_time (k : Int) ids g2 g3 e3
  -- the slot is live, and below it nothing is free
  have hlive3 : chat_live g3 k = true := by
    rw [chat_live_iff]
    have hkl : k < g3.chats.length := by omega
    refine ⟨by omega, g3.chats[k], List.getElem?_eq_getElem hkl, ?_⟩
    have := hst3 k
    rw [hst2, List.getElem?_eq_getElem hkl] at this
    simp only [Option.map_some', Option.some.injEq] at this
    rw [this]
    decide
  have hbelow3 : ∀ j, j < k → chat_free g3 j = false := by
    intro j hj
    have h32 := (chat_free_live_congr g2 g3 j hn3 (hst3 j)).1
    have h21 := (chat_free_live_congr g1 g2 j hn2 (by rw [hrest2 j (by omega)])).1
    rw [h32, h21]
    exact hmin j hj
  obtain ⟨g4, g5, e4, e5, _, hz⟩ :=
    wipe_create_same_handle ok junk1 junk2 g3 (k : Int) (by omega) (by omega) (by omega)
      (by omega) (by rw [Int.toNat_ofNat]; exact hlive3)
      (by rw [Int.toNat_ofNat]; exact hbelow3)
  exact ⟨g4, g5, e4, e5, hz⟩

/-- Witness for C12, amended: the round trip on the empty registry with three peers. -/
theorem round_trip_no_leak_witness :
    ∃ g3 g4 g5,
      addpeers_at Group_Peer.zero 5 0 [[1], [2], [3]]
          { m := 1, chats := [⟨1, [], 0⟩], num_chats := 1, cons := [], num_cons := 0 } =
        .done g3 ∧
      wipe_group_chat true Group_c.zero g3 0 = .done (g4, 0) ∧
      create_group_chat true Group_c.zero g4 = .done (g5, 0) ∧
      (chat_table g5)[0]? =
        some { status := GROUPCHAT_STATUS_NONE, group := [], numpeers := 0 } := by
  obtain ⟨g1, groupnumber, e1, _, g2, e2, hall⟩ :=
    round_trip_no_leak true Group_c.zero Group_c.zero Group_c.zero Group_Peer.zero 5
      { m := 1, chats := [], num_chats := 0, cons := [], num_cons := 0 } [[1], [2], [3]]
      (by decide)
  have e1c : create_group_chat true Group_c.zero
      { m := 1, chats := [], num_chats := 0, cons := [], num_cons := 0 } =
      .done ({ m := 1, chats := [Group_c.zero], num_chats := 1, cons := [], num_cons := 0 },
             0) := by decide
  rw [e1c] at e1
  injection e1 with e1
  injection e1 with hg hh
  subst hg
  subst hh
  have e2c : set_status_valid
      { m := 1, chats := [Group_c.zero], num_chats := 1, cons := [], num_cons := 0 } 0 =
      .done { m := 1, chats := [⟨1, [], 0⟩], num_chats := 1, cons := [], num_cons := 0 } := by
    decide
  rw [e2c] at e2
  injection e2 with e2
  subst e2
  obtain ⟨g4, g5, h4, h5, h6⟩ := hall
    { m := 1, chats := [⟨1, [⟨[1], 5, 5⟩, ⟨[2], 5, 5⟩, ⟨[3], 5, 5⟩], 3⟩],
      num_chats := 1, cons := [], num_cons := 0 } (by decide)
  exact ⟨_, g4, g5, by decide, h4, h5, h6⟩

/-! ## C13: failure returns and the chat table -/

/-- A failure return of `create_group_chat` leaves the registry as it was. -/
theorem create_group_chat_failure_atomic (ok : Bool) (junk : Group_c) (g_c g1 : Group_Chats)
    (hwf : chats_wf g_c) (h : create_group_chat ok junk g_c = .done (g1, -1)) :
    g1 = g_c := by
  rcases create_group_chat_cases ok junk g_c hwf.1 hwf.2 with
    ⟨k0, _, _, e⟩ | ⟨_, _, g2, e, _⟩ | ⟨_, _, e⟩
  · rw [e] at h
    injection h with h
    injection h with _ h2
    omega
  · rw [e] at h
    injection h with h
    injection h with _ h2
    omega
  · rw [e] at h
    injection h with h
    injection h with h1 _
    exact h1.symm

/-- A failure return of `wipe_group_chat` leaves the registry as it was. -/
theorem wipe_group_chat_failure_atomic (ok : Bool) (junk : Group_c) (g_c g1 : Group_Chats)
    (groupnumber : Int) (hwf : chats_wf g_c) (hint : is_int groupnumber)
    (h : wipe_group_chat ok junk g_c groupnumber = .done (g1, -1)) :
    g1 = g_c := by
  by_cases hl : 0 ≤ groupnumber ∧ chat_live g_c groupnumber.toNat = true
  · obtain ⟨g2, e, _⟩ := wipe_group_chat_live ok junk g_c groupnumber hwf.1
      (le_of_lt hwf.2) hint.2 hl.1 hl.2
    rw [e] at h
    injection h with h
    injection h with _ h2
    omega
  · rw [wipe_group_chat_invalid ok junk g_c groupnumber hwf.1 (le_of_lt hwf.2)
      hint.1 hint.2 hl] at h
    injection h with h
    injection h with h1 _
    exact h1.symm

/-- C13, at the failing input: on the empty registry with the allocation succeeding
`temp_c_add_groupchat` returns the failure value -1, yet the chat table is not as
before the call: it was empty and now holds one slot. -/
theorem temp_c_add_groupchat_failure_grows_table (junk : Group_c) :
    ∃ g1, temp_c_add_groupchat true junk
        { m := 1, chats := [], num_chats := 0, cons := [], num_cons := 0 } = .done (g1, -1) ∧
      chat_table { m := 1, chats := [], num_chats := 0, cons := [], num_cons := 0 } = [] ∧
      chat_table g1 = [Group_c.zero] ∧ g1.num_chats = 1 :=
  ⟨{ m := 1, chats := [Group_c.zero], num_chats := 1, cons := [], num_cons := 0 },
    rfl, rfl, rfl, rfl⟩

/-! ## C14: trailing free slots -/

/-- C15: on a well-formed chat table and two distinct live handles, after the
successful `wipe_group_chat` of the first the second is still live and
`get_group_c` returns its slot, which is the same record as before (same status,
same peer list).  Every slot that stays inside the table, other than the wiped one,
is the same record at the same index, and every other live slot stays inside. -/
theorem wipe_group_chat_keeps_other_handles (ok : Bool) (junk : Group_c)
    (g_c : Group_Chats) (groupnumber other : Int) (hwf : chats_wf g_c)
    (hint : is_int groupnumber) (hinto : is_int other)
    (hlive : groupnumber_not_valid g_c groupnumber = .done 0)
    (hliveo : groupnumber_not_valid g_c other = .done 0) (hne : groupnumber ≠ other) :
    ∃ g1, wipe_group_chat ok junk g_c groupnumber = .done (g1, 0) ∧
      groupnumber_not_valid g1 other = .done 0 ∧
      get_group_c g1 other = .done (some other) ∧
      (chat_table g1)[other.toNat]? = (chat_table g_c)[other.toNat]? ∧
      (∀ j, j < g1.num_chats → j ≠ groupnumber.toNat →
        (chat_table g1)[j]? = (chat_table g_c)[j]?) ∧
      (∀ j, chat_live g_c j = true → j ≠ groupnumber.toNat → j < g1.num_chats) := by
  obtain ⟨h0, hl⟩ := (groupnumber_live_iff g_c groupnumber hwf hint).1 hlive
  obtain ⟨ho0, hlo⟩ := (groupnumber_live_iff g_c other hwf hinto).1 hliveo
  obtain ⟨g1, e, hle, hb1, htab, hcut, _, _, _, _⟩ :=
    wipe_group_chat_live ok junk g_c groupnumber hwf.1 (le_of_lt hwf.2) hint.2 h0 hl
  have hk := chat_live_lt g_c _ hl
  have hslot := wipe_group_chat_slots g_c g1 groupnumber.toNat hwf.1 hk htab
  obtain ⟨hlive1, _⟩ := wipe_group_chat_pattern g_c g1 groupnumber.toNat hwf.1 hk htab hcut
  have hstay : ∀ j, chat_live g_c j = true → j ≠ groupnumber.toNat → j < g1.num_chats := by
    intro j hj hjk
    apply chat_live_lt g1 j
    rw [hlive1 j, hj]
    simp [hjk]
  have hsame : ∀ j, j < g1.num_chats → j ≠ groupnumber.toNat →
      (chat_table g1)[j]? = (chat_table g_c)[j]? := by
    intro j hj hjk
    rw [hslot j, if_pos hj, if_neg hjk]
  have hneo : other.toNat ≠ groupnumber.toNat := by omega
  have hlo1 : chat_live g1 other.toNat = true := by
    rw [hlive1, hlo]
    simp [hneo]
  have hval : groupnumber_not_valid g1 other = .done 0 := by
    rw [groupnumber_not_valid_eq g1 other hb1 (by have := hwf.2; omega) hinto.1 hinto.2,
      if_pos ⟨ho0, hlo1⟩]
  refine ⟨g1, e, hval, ?_, hsame _ (hstay _ hlo hneo) hneo, hsame, hstay⟩
  unfold get_group_c
  rw [hval]
  simp

/-- Witness for C15: three live slots, handle 2 is wiped, handle 0 stays. -/
theorem wipe_group_chat_keeps_other_handles_witness :
    ∃ g1, wipe_group_chat true Group_c.zero
        { m := 1, chats := [⟨1, [⟨[7], 1, 1⟩], 1⟩, ⟨1, [], 0⟩, ⟨1, [], 0⟩], num_chats := 3,
          cons := [], num_cons := 0 } 2 = .done (g1, 0) ∧
      get_group_c g1 0 = .done (some 0) ∧
      (chat_table g1)[0]? = some ⟨1, [⟨[7], 1, 1⟩], 1⟩ :=
  let ⟨g1, e, _, hget, hslot, _⟩ := wipe_group_chat_keeps_other_handles true Group_c.zero
    { m := 1, chats := [⟨1, [⟨[7], 1, 1⟩], 1⟩, ⟨1, [], 0⟩, ⟨1, [], 0⟩], num_chats := 3,
      cons := [], num_cons := 0 } 2 0 (by decide) (by decide) (by decide) (by decide)
    (by decide) (by decide)
  ⟨g1, e, hget, hslot⟩

/-! ## C16, C17: `new_groupchats` and `do_groupchats` -/

/-- C16: `new_groupchats` returns no instance when the owner is NULL, whatever the
allocator does; with an owner and `calloc` succeeding it returns a registry bound to
that owner whose chat table and connection table are empty, count 0 and block
NULL. -/
theorem new_groupchats_result (ok : Bool) (m : Nat) :
    new_groupchats ok 0 = none ∧
    (m ≠ 0 →
      ∃ g_c, new_groupchats true m = some g_c ∧ g_c.m = m ∧
        g_c.num_chats = 0 ∧ g_c.num_cons = 0 ∧ g_c.chats = [] ∧ g_c.cons = [] ∧
        chat_table g_c = [] ∧ con_table g_c = []) := by
  refine ⟨rfl, ?_⟩
  intro hm
  refine ⟨{ m := m, chats := [], num_chats := 0, cons := [], num_cons := 0 }, ?_,
    rfl, rfl, rfl, rfl, rfl, rfl, rfl⟩
  unfold new_groupchats
  simp [hm]

/-- Witness for C16: the owner 1. -/
theorem new_groupchats_result_witness :
    ∃ g_c, new_groupchats true 1 = some g_c ∧ g_c.m = 1 ∧
      g_c.num_chats = 0 ∧ g_c.num_cons = 0 ∧ g_c.chats = [] ∧ g_c.cons = [] ∧
      chat_table g_c = [] ∧ con_table g_c = [] :=
  (new_groupchats_result true 1).2 (by decide)

/-- C17: any number of calls of `do_groupchats` leaves the registry as it is: the
chat table, the connection table and every peer list with it. -/
theorem do_groupchats_no_effect (g_c : Group_Chats) (n : Nat) :
    Nat.iterate do_groupchats n g_c = g_c ∧
    chat_table (Nat.iterate do_groupchats n g_c) = chat_table g_c ∧
    con_table (Nat.iterate do_groupchats n g_c) = con_table g_c ∧
    (chat_table (Nat.iterate do_groupchats n g_c)).map peer_list =
      (chat_table g_c).map peer_list := by
  have h : Nat.iterate do_groupchats n g_c = g_c := by
    induction n with
    | zero => rfl
    | succ n ih =>
      rw [Function.iterate_succ_apply']
      rw [ih]
      rfl
  rw [h]
  exact ⟨rfl, rfl, rfl, rfl⟩

/-! ## C18: the slot lifecycle of the two tables -/

/-- For a well-formed connection table and a well-formed chat table with the same
length and the same free/live pattern, and every `int` handle, the validity checks
agree, and the two creations, under the same allocator answer, return the same
value and leave tables of the same pattern again. -/
theorem con_chat_same_check_and_create (ok : Bool) (junkc : Group_Connection)
    (junkg : Group_c) (g_c g_p : Group_Chats) (handle : Int)
    (hwfc : cons_wf g_c) (hwfg : chats_wf g_p) (hint : is_int handle)
    (hpat : con_pattern g_c = chat_pattern g_p) :
    con_number_not_valid g_c handle = groupnumber_not_valid g_p handle ∧
    (∃ gc gg r, create_group_con ok junkc g_c = .done (gc, r) ∧
      create_group_chat ok junkg g_p = .done (gg, r) ∧
      con_pattern gc = chat_pattern gg) := by
  have hnum : g_c.num_cons = g_p.num_chats := by
    rw [← con_pattern_length g_c hwfc.1, ← chat_pattern_length g_p hwfg.1, hpat]
  have hfree : ∀ j, con_free g_c j = chat_free g_p j := by
    intro j
    rw [con_free_eq_pattern, chat_free_eq_pattern, hpat]
  have hlive : ∀ j, con_live g_c j = chat_live g_p j := by
    intro j
    rw [con_live_eq_pattern, chat_live_eq_pattern, hpat]
  refine ⟨?_, ?_⟩
  · rw [con_number_not_valid_eq g_c handle hwfc.1 (le_of_lt hwfc.2) hint.1 hint.2,
      groupnumber_not_valid_eq g_p handle hwfg.1 (le_of_lt hwfg.2) hint.1 hint.2, hlive]
  · rcases create_group_con_cases ok junkc g_c hwfc.1 hwfc.2 with
      ⟨k, hk, hkmin, e⟩ | ⟨hnone, hok, gc, e, _, _, htab, _⟩ | ⟨hnone, hok, e⟩
    · rcases create_group_chat_cases ok junkg g_p hwfg.1 hwfg.2 with
        ⟨k1, hk1, hk1min, e1⟩ | ⟨hnone1, _, _⟩ | ⟨hnone1, _, _⟩
      · have : k = k1 := by
          rcases Nat.lt_trichotomy k k1 with h | h | h
          · rw [hfree, hk1min k h] at hk; cases hk
          · exact h
          · rw [← hfree, hkmin k1 h] at hk1; cases hk1
        subst this
        exact ⟨g_c, g_p, _, e, e1, hpat⟩
      · rw [hfree, hnone1] at hk; cases hk
      · rw [hfree, hnone1] at hk; cases hk
    · rcases create_group_chat_cases ok junkg g_p hwfg.1 hwfg.2 with
        ⟨k1, hk1, _, _⟩ | ⟨_, _, gg, e1, _, _, htab1, _⟩ | ⟨_, hok1, _⟩
      · rw [← hfree, hnone] at hk1; cases hk1
      · refine ⟨gc, gg, _, e, by rw [e1, hnum], ?_⟩
        unfold con_pattern chat_pattern at hpat ⊢
        rw [htab, htab1, List.map_append, List.map_append, hpat]
        rfl
      · rw [hok] at hok1; cases hok1
    · rcases create_group_chat_cases ok junkg g_p hwfg.1 hwfg.2 with
        ⟨k1, hk1, _, _⟩ | ⟨_, hok1, _⟩ | ⟨_, _, e1⟩
      · rw [← hfree, hnone] at hk1; cases hk1
      · rw [hok] at hok1; cases hok1
      · exact ⟨g_c, g_p, _, e, e1, hpat⟩

/-- With the allocation succeeding `create_group_con` hands out a free slot of the
table it leaves, the lowest free one. -/
theorem create_group_con_handle (junk : Group_Connection) (g_c : Group_Chats) (hwf : cons_wf g_c) :
    ∃ (g1 : Group_Chats) (k : Nat), create_group_con true junk g_c = .done (g1, (k : Int)) ∧
      k < g1.num_cons ∧ g1.num_cons ≤ g1.cons.length ∧ g1.num_cons ≤ 2147483648 ∧
      con_free g1 k = true ∧ (∀ j, j < k → con_free g1 j = false) ∧
      (con_free g_c k = false → (con_table g1)[k]? = some Group_Connection.zero) := by
  rcases create_group_con_cases true junk g_c hwf.1 hwf.2 with
    ⟨k0, hk0, hmin, e⟩ | ⟨hnone, _, g1, e, hn, hlen, htab, _⟩ | ⟨_, hok, _⟩
  · refine ⟨g_c, k0, e, con_free_lt g_c k0 hk0, hwf.1, le_of_lt hwf.2, hk0, hmin, ?_⟩
    intro h
    rw [h] at hk0
    cases hk0
  · have hslot : (con_table g1)[g_c.num_cons]? = some Group_Connection.zero := by
      rw [htab, List.getElem?_append_right (by rw [con_table_length g_c hwf.1]),
        con_table_length g_c hwf.1]
      simp
    refine ⟨g1, g_c.num_cons, e, by omega, by omega, by have := hwf.2; omega, ?_, ?_,
      fun _ => hslot⟩
    · rw [con_free_of_getElem? g1 _ _ hslot]
      simp [Group_Connection.zero, GROUPCON_STATUS_NONE]
    · intro j hj
      have h1 : (con_table g1)[j]? = (con_table g_c)[j]? := by
        rw [htab, List.getElem?_append_left (by rw [con_table_length g_c hwf.1]; exact hj)]
      have : con_free g1 j = con_free g_c j := by
        unfold con_free
        rw [h1]
      rw [this]
      exact hnone j
  · cases hok

/-- C19: on a well-formed connection table, two successive `create_group_con` calls
with no status write in between, the allocation of the first succeeding, return the
same handle, and the second call leaves the registry exactly as the first left it,
whatever the allocator would answer; the same holds for `create_group_chat` on a
well-formed chat table. -/
theorem create_twice_same_handle (ok1 : Bool) (junkc junkc1 : Group_Connection)
    (junkg junkg1 : Group_c) (g_c : Group_Chats) (hwfc : cons_wf g_c)
    (hwfg : chats_wf g_c) :
    (∃ g1 con_number, create_group_con true junkc g_c = .done (g1, con_number) ∧
      0 ≤ con_number ∧ create_group_con ok1 junkc1 g1 = .done (g1, con_number)) ∧
    (∃ g1 groupnumber, create_group_chat true junkg g_c = .done (g1, groupnumber) ∧
      0 ≤ groupnumber ∧ create_group_chat ok1 junkg1 g1 = .done (g1, groupnumber)) := by
  constructor
  · obtain ⟨g1, k, e, _, hb1, hi1, hk, hmin, _⟩ := create_group_con_handle junkc g_c hwfc
    exact ⟨g1, (k : Int), e, by omega,
      create_group_con_found ok1 junkc1 g1 hb1 hi1 k hk hmin⟩
  · obtain ⟨g1, k, e, _, hb1, hi1, hk, hmin, _⟩ := create_group_chat_handle junkg g_c hwfg
    exact ⟨g1, (k : Int), e, by omega,
      create_group_chat_found ok1 junkg1 g1 hb1 hi1 k hk hmin⟩

/-- Witness for C19: the empty registry, where the first call of each pair grows the
table. -/
theorem create_twice_same_handle_witness :
    (∃ g1 con_number, create_group_con true ⟨7⟩ ⟨1, [], 0, [], 0⟩ = .done (g1, con_number) ∧
      0 ≤ con_number ∧ create_group_con true ⟨7⟩ g1 = .done (g1, con_number)) ∧
    (∃ g1 groupnumber,
      create_group_chat true Group_c.zero ⟨1, [], 0, [], 0⟩ = .done (g1, groupnumber) ∧
      0 ≤ groupnumber ∧ create_group_chat true Group_c.zero g1 = .done (g1, groupnumber)) :=
  create_twice_same_handle true ⟨7⟩ ⟨7⟩ Group_c.zero Group_c.zero ⟨1, [], 0, [], 0⟩
    (by decide) (by decide)

end Toxcore
